import Mathlib

/-!
# Storage methods: a shallow embedding of `torch/csrc/StorageMethods.cpp`

The definitions below follow the C++ source function by function.  Machine
integers are `Int`/`Nat` with explicit wrap-around (`wrapS64`, `wrapU64`),
raw memory is a list of bytes, a null pointer is `none`, and every way a
method can end (return, raised Python error, undefined behaviour) is a
constructor of `Outcome` / `MethodResult`.
-/

namespace StorageMethods

/-! ## Machine integers and bytes -/

/-- One byte of raw memory (`uint8_t`). -/
abbrev Byte := Fin 256

/-- Conversion of an integer to `size_t` / `uint64_t` (reduction modulo `2^64`). -/
def wrapU64 (x : Int) : Nat := (x % 18446744073709551616).toNat

/-- Result of a signed 64-bit operation (`Py_ssize_t`, `int64_t`): the
mathematical value reduced to the two's-complement range `[-2^63, 2^63)`. -/
def wrapS64 (x : Int) : Int :=
  (x + 9223372036854775808) % 18446744073709551616 - 9223372036854775808

/-- Values representable as `Py_ssize_t` / `int64_t`. -/
def isSsize (x : Int) : Prop := -9223372036854775808 ≤ x ∧ x < 9223372036854775808

instance (x : Int) : Decidable (isSsize x) := by
  unfold isSsize; exact inferInstance

/-! ## Data model -/

/-- The `c10::DeviceType` values this file dispatches on, and three of the
remaining ones (which all take the final `else` of the dispatch). -/
inductive DeviceType where
  | CPU | CUDA | Meta | PrivateUse1 | XPU | HIP | XLA | MPS
  deriving DecidableEq, Repr

/-- The `c10::ScalarType` values named in `THPStorage_fromBuffer` (by their
`at::k...` constants), and four scalar types it does not name. -/
inductive ScalarType where
  | kByte | kChar | kShort | kInt | kLong | kHalf | kFloat | kDouble
  | kComplexFloat | kComplexDouble | kBool | kBFloat16
  | kFloat8_e5m2 | kFloat8_e4m3fn | kFloat8_e5m2fnuz | kFloat8_e4m3fnuz
  | kComplexHalf | kQInt8 | kQUInt8 | kQInt32
  deriving DecidableEq, Repr

/-- Modelled from the spec: `c10::elementSize` is declared in
`c10/core/ScalarType.h`, which is not part of the source file.  The spec says
each element kind of the catalogue has "a known element width in bytes"; the
widths are the ones the kind names carry (int32 is 4 bytes, complex128 is 16,
the 8-bit formats and bool are 1). -/
def elementSize : ScalarType → Nat
  | .kByte => 1 | .kChar => 1 | .kBool => 1
  | .kShort => 2 | .kInt => 4 | .kLong => 8
  | .kHalf => 2 | .kBFloat16 => 2 | .kFloat => 4 | .kDouble => 8
  | .kComplexFloat => 8 | .kComplexDouble => 16
  | .kFloat8_e5m2 => 1 | .kFloat8_e4m3fn => 1
  | .kFloat8_e5m2fnuz => 1 | .kFloat8_e4m3fnuz => 1
  | .kComplexHalf => 4 | .kQInt8 => 1 | .kQUInt8 => 1 | .kQInt32 => 4

/-- The element kinds of the decoder catalogue in the spec: byte, int8, bool,
int16, int32, int64, float16, bfloat16, float32, float64, complex64,
complex128 and the 8-bit float formats. -/
def inCatalogue : ScalarType → Bool
  | .kComplexHalf => false | .kQInt8 => false | .kQUInt8 => false | .kQInt32 => false
  | _ => true

/-- Byte orders (`torch::utils::THPByteOrder`). -/
inductive THPByteOrder where
  | THP_LITTLE_ENDIAN | THP_BIG_ENDIAN
  deriving DecidableEq, Repr

/-- Allocators a storage can refer to. -/
inductive AllocatorRef where
  | null | defaultCPU | other (id : Nat)
  deriving DecidableEq, Repr

/-- A non-null data pointer: its address and the bytes of the allocation it
points to. -/
structure DataPtr where
  addr : Nat
  bytes : List Byte
  deriving DecidableEq, Repr

/-- The fields of `c10::StorageImpl` the methods read or write.  `data_ptr` is
`none` for a null pointer. -/
structure StorageImpl where
  data_ptr : Option DataPtr
  size_bytes : Nat
  device_type : DeviceType
  resizable : Bool
  allocator : AllocatorRef
  deriving DecidableEq, Repr

/-- Value of `storage.nbytes()`. -/
def StorageImpl.nbytes (s : StorageImpl) : Nat := s.size_bytes

/-- The bytes reachable through the data pointer (none for a null pointer). -/
def StorageImpl.contents (s : StorageImpl) : List Byte :=
  match s.data_ptr with
  | none => []
  | some p => p.bytes

/-! ## Errors and outcomes -/

/-- Exception classes, as far as the source file fixes them. -/
inductive ExcClass where
  | ValueError      -- `PyErr_SetString(PyExc_ValueError, ...)` / `PyErr_Format`
  | TorchCheck      -- a failed `TORCH_CHECK`, surfaced by `HANDLE_TH_ERRORS`
  | ArgumentError   -- raised by the CPython argument helpers
  deriving DecidableEq, Repr

/-- One constructor per place where a method of the file raises. -/
inductive PyErr where
  /-- Raised when `PyArg_ParseTupleAndKeywords` rejects the arguments. -/
  | parseArgs
  /-- Message "argument dtype cannot be None". -/
  | dtypeNone
  /-- Message "argument dtype must be of type torch.dtype". -/
  | dtypeNotDtype
  /-- Message "function missing required argument byte_order (pos 2)". -/
  | missingByteOrder
  /-- Message "invalid byte_order ... (expected big, little, or native)". -/
  | invalidByteOrder (byte_order_str : String)
  /-- Raised when `PyObject_GetBuffer` fails. -/
  | getBufferFailed
  /-- Message "offset must be non-negative and no greater than buffer length ..."; the
  two format arguments in the order the source passes them. -/
  | offsetOutOfRange (offset len : Int)
  /-- Message "buffer size (len) must be a multiple of element size (element_size)". -/
  | bufferNotMultiple (len : Int) (element_size : Nat)
  /-- Message "buffer has only ... elements after offset ..., but specified a size of ...". -/
  | bufferTooSmall (remaining offset count : Int)
  /-- Message "Unknown type: ...". -/
  | unknownType (scalar_type : ScalarType)
  /-- Raised when `THPStorage_assertNotNull` fails. -/
  | nullStorage
  /-- Message "Attempted to ... on an invalid python storage."; `method` is the name
  the message gives. -/
  | invalidStorage (method : String)
  /-- Message "resize_ expects an int, but got ...". -/
  | resizeExpectsInt
  /-- Message "fill_ expects int, but got ...". -/
  | fillExpectsInt
  /-- Raised when `THPUtils_unpackLong` / `THPUtils_unpackUInt64` cannot convert the number. -/
  | unpackOverflow
  /-- Message "Requested storage size (...) cannot be represented as a size_t / int64_t". -/
  | sizeNotRepresentable (size_bytes_i : Int)
  /-- Message "UntypedStorage.resize_: got unexpected device type ...". -/
  | unexpectedDevice (device_type : DeviceType)
  /-- Message "tuple of 1 item expected". -/
  | tupleOf1Expected
  /-- Message "_byteswap(): arg must be an int". -/
  | byteswapArgNotInt
  /-- Message "elem_size must be 1, 2, 4, or 8". -/
  | badElemSize
  /-- Message "the length of data is not a multiple of elem_size". -/
  | lengthNotMultiple (elem_size : Int)
  /-- Message "_write_file: need to specify element size". -/
  | needElementSize
  /-- Message "_write_file could not retrieve a file descriptor from given object". -/
  | noFileDescriptor
  /-- An error raised by a routine that lives outside the source file. -/
  | outside (tag : Nat)
  deriving DecidableEq, Repr

/-- Exception class of each error of `THPStorage_fromBuffer` and of the
`TORCH_CHECK`s of the file. -/
def PyErr.excClass : PyErr → ExcClass
  | .invalidByteOrder _ => .ValueError
  | .offsetOutOfRange _ _ => .ValueError
  | .bufferNotMultiple _ _ => .ValueError
  | .bufferTooSmall _ _ _ => .ValueError
  | .parseArgs => .ArgumentError
  | .getBufferFailed => .ArgumentError
  | .unpackOverflow => .ArgumentError
  | _ => .TorchCheck

/-- How a function that builds a new object ends. -/
inductive Outcome (α : Type) where
  /-- Normal return. -/
  | returned (a : α)
  /-- A Python error is set and no object is returned. -/
  | raised (e : PyErr)
  /-- Undefined behaviour: memory is accessed through a null pointer or
  outside the allocation. -/
  | crashed
  deriving DecidableEq, Repr

/-- How a method on an existing storage ends; `self` is the storage as the
method leaves it. -/
inductive MethodResult (α : Type) where
  | returned (a : α) (self : StorageImpl)
  | raised (e : PyErr) (self : StorageImpl)
  | crashed
  deriving DecidableEq, Repr

/-! ## `THPStorage_fromBuffer` (source lines 216-406) -/

/-- What the process environment supplies to `THPStorage_fromBuffer`: the
value of `torch::utils::THP_nativeByteOrder()` (declared outside the source
file, so taken as a parameter), and the address and indeterminate initial
bytes of memory handed out by the default CPU allocator. -/
structure Host where
  THP_nativeByteOrder : THPByteOrder
  heap_addr : Nat
  uninit : Nat → Byte

/-- The `dtype` argument as the function sees it: absent (`dtype_obj ==
nullptr`), an object that fails `THPDtype_Check`, or a dtype. -/
inductive DtypeArg where
  | absent
  | notDtype
  | dtype (scalar_type : ScalarType)
  deriving DecidableEq, Repr

/-- The arguments of `from_buffer` (format "O|snnO"), with the defaults the
source gives the optional ones.  `obj` is what `PyObject_GetBuffer(obj,
PyBUF_SIMPLE)` exposes: `none` when the object does not export a buffer,
otherwise the bytes `buffer.buf[0 .. buffer.len)`. -/
structure FromBufferArgs where
  obj : Option (List Byte)
  byte_order_str : Option String := none
  count : Int := -1
  offset : Int := 0
  dtype_obj : DtypeArg := DtypeArg.absent
  deriving DecidableEq, Repr

/-- The call `torch::utils::THP_decode...Buffer(dst, src + offset,
do_byte_swap, count)` made on the new storage; `kind` selects the decoder.
The decoders are defined outside the source file. -/
structure DecodeCall where
  kind : ScalarType
  src_offset : Int
  do_byte_swap : Bool
  count : Int
  deriving DecidableEq, Repr

/-- What `THPStorage_fromBuffer` returns: the new storage, and for the kinds
that are not copied verbatim the decoder call that fills it. -/
structure Decoded where
  storage : StorageImpl
  decoder : Option DecodeCall
  deriving DecidableEq, Repr

/-- Lines 252-256: the endian-independent scalar types. -/
def is_endian_independent (scalar_type : ScalarType) : Bool :=
  (scalar_type == .kByte) || (scalar_type == .kChar) || (scalar_type == .kFloat8_e5m2) ||
    (scalar_type == .kFloat8_e5m2fnuz) || (scalar_type == .kFloat8_e4m3fn) ||
    (scalar_type == .kFloat8_e4m3fnuz)

/-- Lines 263-281: the value of `do_byte_swap`.  `strcmp` on a null
`byte_order_str` would be undefined behaviour. -/
def do_byte_swap (host : Host) (endian_independent : Bool)
    (byte_order_str : Option String) : Outcome Bool :=
  if endian_independent then .returned false
  else
    match byte_order_str with
    | none => .crashed
    | some s =>
      if s = "native" then .returned false
      else if s = "big" then
        .returned (decide (THPByteOrder.THP_LITTLE_ENDIAN = host.THP_nativeByteOrder))
      else if s = "little" then
        .returned (decide (THPByteOrder.THP_BIG_ENDIAN = host.THP_nativeByteOrder))
      else .raised (.invalidByteOrder s)

/-- Lines 286-325: the offset check, the computation of `size_bytes` and
`count`, and the bounds check.  `len` is `buffer.len`.  The subtraction,
product and sum on `Py_ssize_t` values wrap to 64 bits; `size_bytes` is a
`size_t`.  Returns `(size_bytes, count)`. -/
def checkRange (len offset count : Int) (element_size : Nat) : Except PyErr (Nat × Int) :=
  if offset < 0 ∨ offset > len then
    .error (.offsetOutOfRange offset len)
  else
    let sized : Except PyErr (Nat × Int) :=
      if count < 0 then
        if wrapU64 (wrapS64 (len - offset)) % element_size ≠ 0 then
          .error (.bufferNotMultiple len element_size)
        else
          let size_bytes := wrapU64 (wrapS64 (len - offset))
          .ok (size_bytes, wrapS64 ((size_bytes / element_size : Nat) : Int))
      else
        .ok ((wrapU64 count * element_size) % 18446744073709551616, count)
    match sized with
    | .error e => .error e
    | .ok (size_bytes, count) =>
      if wrapS64 (offset + wrapS64 (count * wrapS64 (element_size : Int))) > len then
        .error (.bufferTooSmall (wrapS64 (len - offset)) offset count)
      else
        .ok (size_bytes, count)

/-- Modelled from the spec: `c10::GetDefaultCPUAllocator()` is defined outside
the source file.  By the spec the pointer of a storage is null iff `nbytes ==
0`; the bytes of a fresh allocation are indeterminate (`host.uninit`). -/
def defaultCPUAllocate (host : Host) (nbytes : Nat) : Option DataPtr :=
  if nbytes = 0 then none
  else some { addr := host.heap_addr, bytes := (List.range nbytes).map host.uninit }

/-- Lines 328-332: `c10::make_intrusive<at::StorageImpl>(use_byte_size_t(),
size_bytes, c10::GetDefaultCPUAllocator(), /*resizable=*/true)`. -/
def newCPUStorage (host : Host) (size_bytes : Nat) : StorageImpl :=
  { data_ptr := defaultCPUAllocate host size_bytes
    size_bytes := size_bytes
    device_type := .CPU
    resizable := true
    allocator := .defaultCPU }

/-- The C library call `memcpy(dst, src + src_offset, n)`: `none` when it reads
outside `src` or writes outside the allocation behind `dst` (undefined
behaviour); copying no bytes leaves `dst` as it is. -/
def memcpy (dst : Option DataPtr) (src : List Byte) (src_offset : Int) (n : Nat) :
    Option (Option DataPtr) :=
  if n = 0 then some dst
  else
    match dst with
    | none => none
    | some p =>
      if 0 ≤ src_offset ∧ src_offset + n ≤ src.length ∧ n ≤ p.bytes.length then
        some (some { p with
          bytes := (src.drop src_offset.toNat).take n ++ p.bytes.drop n })
      else none

/-- Lines 327-404: allocate the storage and fill it, by `memcpy` for the
endian-independent kinds and by the decoder of the scalar type otherwise. -/
def fillStorage (host : Host) (scalar_type : ScalarType) (endian_independent swap : Bool)
    (src : List Byte) (offset count : Int) (size_bytes : Nat) : Outcome Decoded :=
  let storage := newCPUStorage host size_bytes
  if endian_independent then
    match memcpy storage.data_ptr src offset (wrapU64 count) with
    | none => .crashed
    | some p => .returned { storage := { storage with data_ptr := p }, decoder := none }
  else if scalar_type = .kBool ∨ scalar_type = .kShort ∨ scalar_type = .kInt ∨
      scalar_type = .kLong ∨ scalar_type = .kHalf ∨ scalar_type = .kBFloat16 ∨
      scalar_type = .kFloat ∨ scalar_type = .kDouble ∨ scalar_type = .kComplexFloat ∨
      scalar_type = .kComplexDouble then
    .returned
      { storage := storage
        decoder := some
          { kind := scalar_type, src_offset := offset, do_byte_swap := swap, count := count } }
  else
    .raised (.unknownType scalar_type)

/-- The function `THPStorage_fromBuffer`, lines 216-406. -/
def THPStorage_fromBuffer (host : Host) (args : FromBufferArgs) : Outcome Decoded :=
  -- format "n": `count` and `offset` must fit a `Py_ssize_t`
  if ¬ (isSsize args.count ∧ isSsize args.offset) then .raised .parseArgs
  else
    match args.dtype_obj with
    | .absent => .raised .dtypeNone
    | .notDtype => .raised .dtypeNotDtype
    | .dtype scalar_type =>
      let endian_independent := is_endian_independent scalar_type
      if ¬ (endian_independent = true ∨ args.byte_order_str.isSome = true) then
        .raised .missingByteOrder
      else
        let element_size := elementSize scalar_type
        match do_byte_swap host endian_independent args.byte_order_str with
        | .crashed => .crashed
        | .raised e => .raised e
        | .returned swap =>
          match args.obj with
          | none => .raised .getBufferFailed
          | some src =>
            match checkRange src.length args.offset args.count element_size with
            | .error e => .raised e
            | .ok (size_bytes, count) =>
              fillStorage host scalar_type endian_independent swap src args.offset count
                size_bytes

/-! ## Python arguments of the methods -/

/-- A Python object passed to a method, as far as the methods tell objects
apart: an int, `True`/`False`, `None`, anything else. -/
inductive PyObject where
  | long (value : Int)
  | bool (b : Bool)
  | none
  | other
  deriving DecidableEq, Repr

/-- Modelled from the spec: `THPUtils_checkLong` is declared in
`torch/csrc/utils/python_numbers.h`, outside the source file (argument
marshalling is out of the spec's scope).  It accepts Python ints and nothing
else. -/
def THPUtils_checkLong : PyObject → Bool
  | .long _ => true
  | _ => false

/-- Modelled from the spec: `THPUtils_unpackLong` is declared in
`torch/csrc/utils/python_numbers.h`, outside the source file.  By the spec
(section 7) a size conversion across integer widths fails instead of
truncating: an int that does not fit `int64_t` raises. -/
def THPUtils_unpackLong : PyObject → Except PyErr Int
  | .long v => if isSsize v then .ok v else .error .unpackOverflow
  | _ => .error .unpackOverflow

/-- Modelled from the spec: `THPUtils_unpackUInt64` is declared in
`torch/csrc/utils/python_numbers.h`, outside the source file.  By the spec
(section 7) an int that does not fit `uint64_t` raises. -/
def THPUtils_unpackUInt64 : PyObject → Except PyErr Nat
  | .long v => if 0 ≤ v ∧ v < 18446744073709551616 then .ok v.toNat else .error .unpackOverflow
  | _ => .error .unpackOverflow

/-! ## The invalid-storage check (Note [Invalid Python Storages]) -/

/-- The local `invalid` of `THPStorage_dataPtr` (lines 57-58),
`THPStorage_resize_` (126-128), `THPStorage_fill_` (200-202) and
`THPStorage_writeFile` (456-458): `storage.data() == nullptr &&
storage.device_type() != c10::DeviceType::Meta && storage.sym_nbytes() != 0`. -/
def invalid (storage : StorageImpl) : Bool :=
  storage.data_ptr.isNone && (storage.device_type != .Meta) && (storage.size_bytes != 0)

/-! ## `THPStorage_dataPtr` (source lines 50-64) -/

/-- The function `THPStorage_dataPtr`; it returns the address held by the data
pointer (0 for a null pointer). -/
def THPStorage_dataPtr (self : StorageImpl) : MethodResult Nat :=
  if invalid self then
    .raised (.invalidStorage "Attempted to access the data pointer on an invalid python storage.")
      self
  else
    .returned (match self.data_ptr with | none => 0 | some p => p.addr) self

/-! ## `THPStorage_resize_` (source lines 121-193) -/

/-- The routines `THPStorage_resize_`, `THPStorage_fill_` and
`THPStorage_writeFile` call that are defined outside the source file, taken as
parameters, and the build flag `USE_CUDA`.  Each routine gets the storage and
the value the source passes to it, and ends like a method. -/
structure Backends where
  USE_CUDA : Bool
  /-- `at::native::resize_bytes_cpu(storage.unsafeGetStorageImpl(), newsize)` -/
  resize_bytes_cpu : StorageImpl → Int → MethodResult Unit
  /-- `at::native::resize_bytes_cuda(storage.unsafeGetStorageImpl(), size_bytes)` -/
  resize_bytes_cuda : StorageImpl → Nat → MethodResult Unit
  /-- `at::native::resize_bytes_meta(storage.unsafeGetStorageImpl(), newsize)` -/
  resize_bytes_meta : StorageImpl → Int → MethodResult Unit
  /-- `at::GetPrivateUse1HooksInterface()->resizePrivateUse1Bytes(storage, newsize)` -/
  resizePrivateUse1Bytes : StorageImpl → Int → MethodResult Unit
  /-- `at::empty({0}, src_option).set_(storage).resize_({size_bytes})`: the
  storage after the tensor resize. -/
  xpu_tensor_resize : StorageImpl → Int → MethodResult Unit
  /-- `at::empty(src_tensor.sizes(), src_tensor.options())` followed by
  `new_tensor.copy_(src_tensor)`: the storage of the new tensor. -/
  xpu_tensor_clone : StorageImpl → Outcome StorageImpl
  /-- `storage_fill(storage, value)` -/
  storage_fill : StorageImpl → Byte → MethodResult Unit
  /-- `THPStorage_writeFileRaw<PyObject*>(impl, file, save_size, element_size)` -/
  writeFileRaw_object : StorageImpl → Nat → Bool → Nat → MethodResult Unit
  /-- `THPStorage_writeFileRaw(impl, fd, save_size, element_size)` -/
  writeFileRaw_fd : StorageImpl → Int → Bool → Nat → MethodResult Unit

/-- Modelled from the spec: `c10::overflows<size_t>` is declared in
`c10/util/TypeCast.h`, outside the source file.  By the spec (section 4.2) a
size that the unsigned byte-count type cannot represent must fail, so the
test holds exactly for the values outside `[0, 2^64)`. -/
def overflows_size_t (v : Int) : Bool :=
  decide (v < 0 ∨ 18446744073709551616 ≤ v)

/-- Modelled from the spec: `c10::overflows<int64_t>`, see `overflows_size_t`;
the test holds exactly for the values outside `[-2^63, 2^63)`. -/
def overflows_int64_t (v : Int) : Bool :=
  decide (¬ isSsize v)

/-- Address held by a data pointer, `storage.data_ptr().get()`. -/
def ptrAddr (p : Option DataPtr) : Nat :=
  match p with
  | none => 0
  | some d => d.addr

/-- Lines 156-183, the XPU branch of `THPStorage_resize_`. -/
def resize_xpu (env : Backends) (storage : StorageImpl) (newsize : Int) : MethodResult Unit :=
  let size_bytes_i := newsize
  if overflows_int64_t size_bytes_i then .raised (.sizeNotRepresentable size_bytes_i) storage
  else
    let size_bytes := size_bytes_i
    let original_data_ptr := ptrAddr storage.data_ptr
    match env.xpu_tensor_resize storage size_bytes with
    | .crashed => .crashed
    | .raised e s => .raised e s
    | .returned _ src =>
      if original_data_ptr = ptrAddr src.data_ptr then
        match env.xpu_tensor_clone src with
        | .crashed => .crashed
        | .raised e => .raised e src
        | .returned new_storage =>
          .returned ()
            { src with
              data_ptr := new_storage.data_ptr
              allocator := new_storage.allocator
              size_bytes := new_storage.nbytes }
      else .returned () src

/-- The function `THPStorage_resize_`.  `self` is the storage the Python
object holds, so `THPStorage_assertNotNull(self)` has passed. -/
def THPStorage_resize_ (env : Backends) (self : StorageImpl) (number_arg : PyObject) :
    MethodResult Unit :=
  if invalid self then
    .raised (.invalidStorage "Attempted to call resize_() on an invalid python storage.") self
  else if ¬ THPUtils_checkLong number_arg then .raised .resizeExpectsInt self
  else
    match THPUtils_unpackLong number_arg with
    | .error e => .raised e self
    | .ok newsize =>
      let device_type := self.device_type
      if device_type = .CPU then env.resize_bytes_cpu self newsize
      else if env.USE_CUDA ∧ device_type = .CUDA then
        let size_bytes_i := newsize
        if overflows_size_t size_bytes_i then .raised (.sizeNotRepresentable size_bytes_i) self
        else env.resize_bytes_cuda self (wrapU64 size_bytes_i)
      else if device_type = .Meta then env.resize_bytes_meta self newsize
      else if device_type = .PrivateUse1 then env.resizePrivateUse1Bytes self newsize
      else if device_type = .XPU then resize_xpu env self newsize
      else .raised (.unexpectedDevice device_type) self

/-! ## `THPStorage_fill_` (source lines 195-214) -/

/-- The function `THPStorage_fill_`.  `THPByteUtils_checkReal` and
`THPByteUtils_unpackReal` are the `uint8_t` instances of the number helpers:
the int is unpacked as a long and converted to `uint8_t`. -/
def THPStorage_fill_ (env : Backends) (self : StorageImpl) (number_arg : PyObject) :
    MethodResult Unit :=
  if invalid self then
    .raised (.invalidStorage "Attempted to call fill_() on an invalid python storage.") self
  else if ¬ THPUtils_checkLong number_arg then .raised .fillExpectsInt self
  else
    match THPUtils_unpackLong number_arg with
    | .error e => .raised e self
    | .ok v => env.storage_fill self (Fin.ofNat (v % 256).toNat)

/-! ## `THPStorage_writeFile` (source lines 451-485) -/

/-- The file argument of `_write_file`: an identity for the Python object and
what `PyObject_AsFileDescriptor` answers for it (-1 when it has none). -/
structure PyFile where
  id : Nat
  descriptor : Int
  deriving DecidableEq, Repr

/-- The four items of the argument tuple of `_write_file`. -/
structure WriteFileArgs where
  file : PyFile
  is_real_file : PyObject
  save_size : PyObject
  element_size_obj : PyObject
  deriving DecidableEq, Repr

/-- The function `THPStorage_writeFile`.  `self` is the storage the Python
object holds, so `THPStorage_assertNotNull(self)` has passed. -/
def THPStorage_writeFile (env : Backends) (self : StorageImpl) (args : WriteFileArgs) :
    MethodResult Unit :=
  if invalid self then
    .raised (.invalidStorage "Attempted to call _write_file() on an invalid python storage.")
      self
  else
    let is_real_file := decide (args.is_real_file = .bool true)
    let save_size := decide (args.save_size = .bool true)
    if args.element_size_obj = .none then .raised .needElementSize self
    else
      match THPUtils_unpackUInt64 args.element_size_obj with
      | .error e => .raised e self
      | .ok element_size =>
        if ¬ is_real_file then env.writeFileRaw_object self args.file.id save_size element_size
        else
          let fd := args.file.descriptor
          if fd = -1 then .raised .noFileDescriptor self
          else env.writeFileRaw_fd self fd save_size element_size

/-! ## `THPStorage_byteswap` (source lines 593-635) -/

/-- Value of the bytes of a word read in little-endian order. -/
def fromLE : List Byte → Nat
  | [] => 0
  | b :: bs => b.val + 256 * fromLE bs

/-- The `w` bytes of a value, least significant first. -/
def toLE : Nat → Nat → List Byte
  | 0, _ => []
  | w + 1, x => Fin.ofNat (x % 256) :: toLE w (x / 256)

/-- Reading `*buffer`: the unsigned value of a word of memory on a host of the
given byte order. -/
def loadWord (native : THPByteOrder) (word : List Byte) : Nat :=
  match native with
  | .THP_LITTLE_ENDIAN => fromLE word
  | .THP_BIG_ENDIAN => fromLE word.reverse

/-- Writing `*buffer = x`: the `w` bytes a value occupies in memory on a host
of the given byte order. -/
def storeWord (native : THPByteOrder) (w x : Nat) : List Byte :=
  match native with
  | .THP_LITTLE_ENDIAN => toLE w x
  | .THP_BIG_ENDIAN => (toLE w x).reverse

/-- Modelled from the spec: the macros `thp_bswap16`, `thp_bswap32` and
`thp_bswap64` are defined in `torch/csrc/utils/byte_order.h`, outside the
source file.  By the spec (section 4.6) they "reverse each word's byte
order": the result is the value whose `w` bytes are those of `x` in reverse
order. -/
def thp_bswap (w x : Nat) : Nat := fromLE (toLE w x).reverse

/-- The macro `thp_bswap16`, see `thp_bswap`. -/
def thp_bswap16 (x : Nat) : Nat := thp_bswap 2 x

/-- The macro `thp_bswap32`, see `thp_bswap`. -/
def thp_bswap32 (x : Nat) : Nat := thp_bswap 4 x

/-- The macro `thp_bswap64`, see `thp_bswap`. -/
def thp_bswap64 (x : Nat) : Nat := thp_bswap 8 x

/-- The body of the loops at lines 618-620, 623-625 and 628-630 for the word
with index `i`: `*buffer = bswap(*buffer)` with `buffer` pointing at the `w`
bytes `[i * w, i * w + w)`.  The result is `none` when the pointer is null or
the word lies outside the allocation. -/
def swapWordAt (native : THPByteOrder) (w : Nat) (bswap : Nat → Nat) (p : Option DataPtr)
    (i : Nat) : Option (Option DataPtr) :=
  match p with
  | none => none
  | some d =>
    if i * w + w ≤ d.bytes.length then
      some (some { d with
        bytes := d.bytes.take (i * w) ++
          storeWord native w (bswap (loadWord native ((d.bytes.drop (i * w)).take w))) ++
          d.bytes.drop (i * w + w) })
    else none

/-- The loop `for (uint64_t i = 0; i < count; i++, buffer++)`, by recursion on
the number `count - i` of iterations still to run. -/
def byteswapLoop (native : THPByteOrder) (w : Nat) (bswap : Nat → Nat) :
    Nat → Nat → Option DataPtr → Option (Option DataPtr)
  | 0, _, p => some p
  | remaining + 1, i, p =>
    match swapWordAt native w bswap p i with
    | none => none
    | some p1 => byteswapLoop native w bswap remaining (i + 1) p1

/-- End of `THPStorage_byteswap` after a loop: `Py_RETURN_NONE`, unless the
loop ran into undefined behaviour. -/
def afterLoop (self : StorageImpl) (r : Option (Option DataPtr)) : MethodResult Unit :=
  match r with
  | none => .crashed
  | some p => .returned () { self with data_ptr := p }

/-- The function `THPStorage_byteswap`; `args` is the argument tuple. -/
def THPStorage_byteswap (host : Host) (self : StorageImpl) (args : List PyObject) :
    MethodResult Unit :=
  match args with
  | [_elem_size] =>
    if ¬ THPUtils_checkLong _elem_size then .raised .byteswapArgNotInt self
    else
      match THPUtils_unpackLong _elem_size with
      | .error e => .raised e self
      | .ok elem_size =>
        if ¬ (elem_size = 1 ∨ elem_size = 2 ∨ elem_size = 4 ∨ elem_size = 8) then
          .raised .badElemSize self
        else
          let nbytes := self.nbytes
          let count := nbytes / wrapU64 elem_size
          if elem_size = 1 then .returned () self
          else if nbytes % wrapU64 elem_size ≠ 0 then
            .raised (.lengthNotMultiple elem_size) self
          else if elem_size = 2 then
            afterLoop self
              (byteswapLoop host.THP_nativeByteOrder 2 thp_bswap16 count 0 self.data_ptr)
          else if elem_size = 4 then
            afterLoop self
              (byteswapLoop host.THP_nativeByteOrder 4 thp_bswap32 count 0 self.data_ptr)
          else if elem_size = 8 then
            afterLoop self
              (byteswapLoop host.THP_nativeByteOrder 8 thp_bswap64 count 0 self.data_ptr)
          else .returned () self
  | _ => .raised .tupleOf1Expected self

/-! ## `THPStorage_fromFile` (source lines 408-449) -/

/-- The arguments of `from_file` (format "s|in"), with the defaults the source
gives the optional ones. -/
structure FromFileArgs where
  filename : String
  shared : Int := 0
  nbytes : Int := 0
  deriving DecidableEq, Repr

/-- What `THPStorage_fromFile` uses from `ATen/MapAllocator.h`, which is not
part of the source file: the flag `at::ALLOCATOR_MAPPED_SHARED`, and
`at::MapAllocator::makeDataPtr(filename, flags, size, &actual_nbytes)`, which
answers with the mapped data pointer and the value it stores in
`actual_nbytes`, or raises. -/
structure MapAllocator where
  ALLOCATOR_MAPPED_SHARED : Int
  makeDataPtr : String → Int → Int → Outcome (Option DataPtr × Nat)

/-- Values representable as a C `int` (format "i"). -/
def isCInt (x : Int) : Prop := -2147483648 ≤ x ∧ x < 2147483648

instance (x : Int) : Decidable (isCInt x) := by
  unfold isCInt; exact inferInstance

/-- The function `THPStorage_fromFile`.  The storage is built over the mapped
pointer with a null allocator and `resizable = false`; a mapped pointer lives
on the CPU.  Its size is `nbytes`, replaced by `actual_nbytes` when `nbytes <=
0` (line 440). -/
def THPStorage_fromFile (map : MapAllocator) (args : FromFileArgs) : Outcome StorageImpl :=
  if ¬ (isCInt args.shared ∧ isSsize args.nbytes) then .raised .parseArgs
  else
    let nbytes := args.nbytes
    let shared := if args.shared ≠ 0 then map.ALLOCATOR_MAPPED_SHARED else args.shared
    match map.makeDataPtr args.filename shared nbytes with
    | .crashed => .crashed
    | .raised e => .raised e
    | .returned (data_ptr, actual_nbytes) =>
      let storage : StorageImpl :=
        { data_ptr := data_ptr
          size_bytes := nbytes.toNat
          device_type := .CPU
          resizable := false
          allocator := .null }
      if nbytes ≤ 0 then .returned { storage with size_bytes := actual_nbytes }
      else .returned storage

/-! ## Vocabulary of the specification -/

/-- A `byte_order` argument that lets decoding of `scalar_type` go ahead: any
(also none) for an endian-independent type, otherwise one of the three tokens
the source compares with. -/
def validByteOrder (scalar_type : ScalarType) (byte_order_str : Option String) : Prop :=
  is_endian_independent scalar_type = true ∨ byte_order_str = some "native" ∨
    byte_order_str = some "big" ∨ byte_order_str = some "little"

instance (scalar_type : ScalarType) (byte_order_str : Option String) :
    Decidable (validByteOrder scalar_type byte_order_str) := by
  unfold validByteOrder; exact inferInstance

/-- The byte order a `byte_order` token asks for: the three tokens of the
spec, "native" being the order of the executing process. -/
def requestedOrder (host : Host) (s : String) : Option THPByteOrder :=
  if s = "native" then some host.THP_nativeByteOrder
  else if s = "big" then some .THP_BIG_ENDIAN
  else if s = "little" then some .THP_LITTLE_ENDIAN
  else none

/-- The validation of the spec (section 4.3) on mathematical integers:
`offset` within `[0, len]`; for `count < 0` the bytes after `offset` divide
evenly by the element width; for `count >= 0`, `offset + count * width` does
not exceed `len`. -/
def passesValidation (len offset count : Int) (width : Nat) : Prop :=
  0 ≤ offset ∧ offset ≤ len ∧
    (if count < 0 then (len - offset).toNat % width = 0 else offset + count * width ≤ len)

instance (len offset count : Int) (width : Nat) :
    Decidable (passesValidation len offset count width) := by
  unfold passesValidation; exact inferInstance

/-- The number of elements decoded: the given `count`, or for `count < 0` the
inferred `(len - offset) / width`. -/
def decodedCount (len offset count : Int) (width : Nat) : Nat :=
  if count < 0 then (len - offset).toNat / width else count.toNat

/-- A storage whose data pointer addresses exactly `nbytes` bytes; a null
pointer addresses none, so this is the invariant of the spec for storages
that are not on the Meta device ("pointer is null iff `nbytes == 0`"). -/
def StorageImpl.backed (s : StorageImpl) : Prop := s.contents.length = s.nbytes

instance (s : StorageImpl) : Decidable s.backed := by
  unfold StorageImpl.backed; exact inferInstance

/-- A storage whose data pointer addresses at least `nbytes` bytes; a null
pointer addresses none, so with a null pointer this says `nbytes = 0`. -/
def StorageImpl.addressable (s : StorageImpl) : Prop := s.nbytes ≤ s.contents.length

instance (s : StorageImpl) : Decidable s.addressable := by
  unfold StorageImpl.addressable; exact inferInstance

/-- The list obtained by reversing each of the first `n` consecutive words of
`w` bytes. -/
def reverseWords (w : Nat) : Nat → List Byte → List Byte
  | 0, bs => bs
  | n + 1, bs => (bs.take w).reverse ++ reverseWords w n (bs.drop w)

/-- A function that, between a load and a store of a `w`-byte word, reverses
the bytes of the word. -/
def ReversesWord (native : THPByteOrder) (w : Nat) (bswap : Nat → Nat) : Prop :=
  ∀ word : List Byte, word.length = w →
    storeWord native w (bswap (loadWord native word)) = word.reverse

/-- The storage with each of its `nbytes / w` words of `w` bytes reversed and
everything else as it was. -/
def swappedStorage (w : Nat) (s : StorageImpl) : StorageImpl :=
  { s with
    data_ptr := s.data_ptr.map
      (fun d => { d with bytes := reverseWords w (s.nbytes / w) d.bytes }) }

/-- A CPU storage holding the bytes `[0, 1, ..., n-1]` at address 4096. -/
def sampleStorage (n : Nat) : StorageImpl :=
  { data_ptr := some { addr := 4096, bytes := (List.range n).map (fun i => Fin.ofNat i) }
    size_bytes := n
    device_type := .CPU
    resizable := true
    allocator := .defaultCPU }

/-- An invalid storage: 16 bytes on the CPU behind a null pointer. -/
def sampleInvalidStorage : StorageImpl :=
  { data_ptr := none, size_bytes := 16, device_type := .CPU, resizable := true,
    allocator := .defaultCPU }

/-- A Meta storage: 16 bytes of logical size and no memory. -/
def sampleMetaStorage : StorageImpl :=
  { data_ptr := none, size_bytes := 16, device_type := .Meta, resizable := true,
    allocator := .null }

/-- Modelled from the spec: the tensor resize and the tensor copy of the XPU
branch are defined outside the source file.  This is the case of section 4.2
where "the native resize primitive silently returns the same physical backing
without a true reallocation" (the source comment at lines 171-174: "the
original data_ptr is still returned"): the tensor resize returns with the
storage as it was, and the copy into a new tensor yields the storage `copy`.
The routines of the other devices do not belong to this case and raise. -/
def sameBackingBackends (copy : StorageImpl) : Backends :=
  { USE_CUDA := false
    resize_bytes_cpu := fun s _ => .raised (.outside 0) s
    resize_bytes_cuda := fun s _ => .raised (.outside 0) s
    resize_bytes_meta := fun s _ => .raised (.outside 0) s
    resizePrivateUse1Bytes := fun s _ => .raised (.outside 0) s
    xpu_tensor_resize := fun s _ => .returned () s
    xpu_tensor_clone := fun _ => .returned copy
    storage_fill := fun s _ => .raised (.outside 0) s
    writeFileRaw_object := fun s _ _ _ => .raised (.outside 0) s
    writeFileRaw_fd := fun s _ _ _ => .raised (.outside 0) s }

/-- A valid XPU storage that is not resizable: the bytes `[0, ..., 15]` at
address 4096. -/
def sampleFixedXpuStorage : StorageImpl :=
  { data_ptr := some { addr := 4096, bytes := (List.range 16).map (fun i => Fin.ofNat i) }
    size_bytes := 16
    device_type := .XPU
    resizable := false
    allocator := .other 1 }

/-- The storage of a new XPU tensor of 8 bytes: the bytes `[0, ..., 7]` at
address 12288. -/
def sampleXpuCopy : StorageImpl :=
  { data_ptr := some { addr := 12288, bytes := (List.range 8).map (fun i => Fin.ofNat i) }
    size_bytes := 8
    device_type := .XPU
    resizable := true
    allocator := .other 2 }

/-- A CPU storage whose allocation (16 bytes) is larger than its `nbytes`
(8). -/
def sampleRoomyStorage : StorageImpl :=
  { data_ptr := some { addr := 4096, bytes := (List.range 16).map (fun i => Fin.ofNat i) }
    size_bytes := 8
    device_type := .CPU
    resizable := true
    allocator := .defaultCPU }

/-- The storage of `sampleStorage n` placed on another device. -/
def sampleStorageOn (device_type : DeviceType) (n : Nat) : StorageImpl :=
  { sampleStorage n with device_type := device_type }

/-- A host used to evaluate the model on concrete inputs: little-endian, with
fresh memory at address 4096 holding the byte 0xAA everywhere. -/
def sampleHost : Host :=
  { THP_nativeByteOrder := .THP_LITTLE_ENDIAN, heap_addr := 4096, uninit := fun _ => 170 }

/-- The buffer `[0, 1, ..., n-1]` (bytes taken modulo 256). -/
def sampleBuffer (n : Nat) : List Byte := (List.range n).map (fun i => Fin.ofNat i)

/-! # Theorems -/

/-! ## Machine integers -/

theorem wrapS64_of_isSsize {x : Int} (h : isSsize x) : wrapS64 x = x := by
  unfold isSsize at h
  unfold wrapS64
  omega

theorem wrapU64_of_nonneg {x : Int} (h0 : 0 ≤ x) (h1 : x < 18446744073709551616) :
    wrapU64 x = x.toNat := by
  unfold wrapU64
  rw [Int.emod_eq_of_lt h0 h1]

/-! ## `THPStorage_fromBuffer` -/

theorem do_byte_swap_valid (host : Host) (st : ScalarType) (bo : Option String)
    (h : validByteOrder st bo) :
    ∃ swap, do_byte_swap host (is_endian_independent st) bo = .returned swap := by
  unfold validByteOrder at h
  unfold do_byte_swap
  rcases h with h | h | h | h
  · simp [h]
  · subst h; by_cases hei : is_endian_independent st = true <;> simp [hei]
  · subst h; by_cases hei : is_endian_independent st = true <;> simp [hei]
  · subst h; by_cases hei : is_endian_independent st = true <;> simp [hei]

/-- With representable `count`/`offset`, a dtype and a usable byte order, the
function is the range check followed by the fill. -/
theorem fromBuffer_of_valid (host : Host) (src : List Byte) (bo : Option String)
    (count offset : Int) (st : ScalarType) (hc : isSsize count) (ho : isSsize offset)
    (hbo : validByteOrder st bo) :
    ∃ swap, do_byte_swap host (is_endian_independent st) bo = .returned swap ∧
    THPStorage_fromBuffer host
        { obj := some src, byte_order_str := bo, count := count, offset := offset,
          dtype_obj := .dtype st } =
      match checkRange src.length offset count (elementSize st) with
      | .error e => .raised e
      | .ok (size_bytes, n) =>
        fillStorage host st (is_endian_independent st) swap src offset n size_bytes := by
  obtain ⟨swap, hswap⟩ := do_byte_swap_valid host st bo hbo
  refine ⟨swap, hswap, ?_⟩
  have hmiss : is_endian_independent st = true ∨ bo.isSome = true := by
    rcases hbo with h | h | h | h
    · exact Or.inl h
    all_goals (subst h; exact Or.inr rfl)
  simp only [THPStorage_fromBuffer, hc, ho, hswap, hmiss, and_self, not_true_eq_false, if_false]

theorem checkRange_offset (len offset count : Int) (w : Nat)
    (h : offset < 0 ∨ offset > len) :
    checkRange len offset count w = .error (.offsetOutOfRange offset len) := by
  simp [checkRange, h]

/-- The range check with an inferred count (`count < 0`). -/
theorem checkRange_infer (len offset count : Int) (w : Nat) (hw16 : w ≤ 16)
    (hlen : len < 9223372036854775808) (h0 : 0 ≤ offset) (h1 : offset ≤ len) (hc : count < 0) :
    checkRange len offset count w =
      if (len - offset).toNat % w ≠ 0 then .error (.bufferNotMultiple len w)
      else .ok ((len - offset).toNat, (((len - offset).toNat / w : Nat) : Int)) := by
  obtain ⟨n, hn⟩ : ∃ n : Nat, len - offset = (n : Int) := Int.eq_ofNat_of_zero_le (by omega)
  obtain ⟨q, hq⟩ : ∃ q : Nat, n / w = q := ⟨_, rfl⟩
  have hqle : q ≤ n := by rw [← hq]; exact Nat.div_le_self _ _
  have hnS : wrapS64 (n : Int) = (n : Int) := wrapS64_of_isSsize ⟨by omega, by omega⟩
  have hu : wrapU64 (n : Int) = n := by
    rw [wrapU64_of_nonneg (by omega) (by omega), Int.toNat_ofNat]
  have hoff : ¬ (offset < 0 ∨ offset > len) := by omega
  have hqS : wrapS64 (q : Int) = (q : Int) := wrapS64_of_isSsize ⟨by omega, by omega⟩
  have hwS : wrapS64 (w : Int) = (w : Int) := wrapS64_of_isSsize ⟨by omega, by omega⟩
  have hsum : wrapS64 (offset + (n : Int)) = len := by
    have : offset + (n : Int) = len := by omega
    rw [this]
    exact wrapS64_of_isSsize ⟨by omega, by omega⟩
  simp only [checkRange, hoff, if_false, hc, if_true, hn, hnS, hu, Int.toNat_ofNat, hq, hqS, hwS]
  by_cases hm : n % w ≠ 0
  · simp [hm]
  · have hdiv : q * w = n := by
      rw [← hq]; exact Nat.div_mul_cancel (Nat.dvd_of_mod_eq_zero (not_not.mp hm))
    have hprod : (q : Int) * (w : Int) = (n : Int) := by exact_mod_cast hdiv
    simp only [hm, if_false, hprod, hnS, hsum]
    simp

/-- The range check with an explicit count whose byte range lies inside the
buffer. -/
theorem checkRange_explicit (len offset count : Int) (w : Nat) (hw : 0 < w) (hw16 : w ≤ 16)
    (hlen : len < 9223372036854775808) (h0 : 0 ≤ offset) (hc : 0 ≤ count)
    (hfit : offset + count * w ≤ len) :
    checkRange len offset count w = .ok (count.toNat * w, count) := by
  obtain ⟨c, rfl⟩ : ∃ c : Nat, count = (c : Int) := Int.eq_ofNat_of_zero_le hc
  obtain ⟨p, hp⟩ : ∃ p : Nat, c * w = p := ⟨_, rfl⟩
  have hpI : (c : Int) * (w : Int) = (p : Int) := by exact_mod_cast hp
  have hcp : c ≤ p := by
    rw [← hp]; exact Nat.le_mul_of_pos_right c hw
  rw [hpI] at hfit
  have hoff : ¬ (offset < 0 ∨ offset > len) := by omega
  have hnc : ¬ ((c : Int) < 0) := by omega
  have hwS : wrapS64 (w : Int) = (w : Int) := wrapS64_of_isSsize ⟨by omega, by omega⟩
  have hpS : wrapS64 (p : Int) = (p : Int) := wrapS64_of_isSsize ⟨by omega, by omega⟩
  have hsS : wrapS64 (offset + (p : Int)) = offset + (p : Int) :=
    wrapS64_of_isSsize ⟨by omega, by omega⟩
  have hcu : wrapU64 (c : Int) = c := by
    rw [wrapU64_of_nonneg (by omega) (by omega), Int.toNat_ofNat]
  have hpm : p % 18446744073709551616 = p := Nat.mod_eq_of_lt (by omega)
  have hle : ¬ (offset + (p : Int) > len) := by omega
  simp only [checkRange, hoff, if_false, hnc, hwS, hpI, hpS, hsS, hcu, hp, hpm, hle,
    Int.toNat_ofNat]

/-- The range check with an explicit count whose byte range ends past the
buffer, as long as `offset + count * w` itself still fits 64 bits. -/
theorem checkRange_too_small (len offset count : Int) (w : Nat) (hw : 0 < w) (hw16 : w ≤ 16)
    (h0 : 0 ≤ offset) (h1 : offset ≤ len) (hc : 0 ≤ count)
    (hbig : offset + count * w > len) (hfits : offset + count * w < 9223372036854775808) :
    checkRange len offset count w = .error (.bufferTooSmall (len - offset) offset count) := by
  obtain ⟨c, rfl⟩ : ∃ c : Nat, count = (c : Int) := Int.eq_ofNat_of_zero_le hc
  obtain ⟨p, hp⟩ : ∃ p : Nat, c * w = p := ⟨_, rfl⟩
  have hpI : (c : Int) * (w : Int) = (p : Int) := by exact_mod_cast hp
  rw [hpI] at hbig hfits
  have hoff : ¬ (offset < 0 ∨ offset > len) := by omega
  have hnc : ¬ ((c : Int) < 0) := by omega
  have hwS : wrapS64 (w : Int) = (w : Int) := wrapS64_of_isSsize ⟨by omega, by omega⟩
  have hpS : wrapS64 (p : Int) = (p : Int) := wrapS64_of_isSsize ⟨by omega, by omega⟩
  have hsS : wrapS64 (offset + (p : Int)) = offset + (p : Int) :=
    wrapS64_of_isSsize ⟨by omega, by omega⟩
  have hdS : wrapS64 (len - offset) = len - offset := wrapS64_of_isSsize ⟨by omega, by omega⟩
  simp only [checkRange, hoff, if_false, hnc, hwS, hpI, hpS, hsS, hbig, if_true, hdS]

theorem elementSize_pos (st : ScalarType) : 0 < elementSize st := by
  cases st <;> decide

theorem elementSize_le (st : ScalarType) : elementSize st ≤ 16 := by
  cases st <;> decide

theorem elementSize_of_endian_independent {st : ScalarType}
    (h : is_endian_independent st = true) : elementSize st = 1 := by
  cases st <;> first | rfl | exact absurd h (by decide)

/-- Copying `n` bytes that lie inside the buffer into a fresh storage of `n`
bytes. -/
theorem fillStorage_memcpy (host : Host) (st : ScalarType) (swap : Bool) (src : List Byte)
    (offset : Int) (n : Nat) (h0 : 0 ≤ offset) (hfit : offset + n ≤ src.length)
    (hn : (n : Int) < 9223372036854775808) :
    ∃ d, fillStorage host st true swap src offset (n : Int) n = .returned d ∧
      d.decoder = none ∧ d.storage.size_bytes = n ∧
      d.storage.contents = (src.drop offset.toNat).take n ∧
      d.storage.device_type = .CPU ∧ d.storage.resizable = true ∧
      d.storage.allocator = .defaultCPU := by
  have hu : wrapU64 (n : Int) = n := by
    rw [wrapU64_of_nonneg (by omega) (by omega), Int.toNat_ofNat]
  by_cases hz : n = 0
  · subst hz
    have hu0 : wrapU64 0 = 0 := by simpa using hu
    simp [fillStorage, newCPUStorage, defaultCPUAllocate, memcpy, hu0, StorageImpl.contents]
  · have hcond : 0 ≤ offset ∧ offset + (n : Int) ≤ (src.length : Int) ∧
        n ≤ ((List.range n).map host.uninit).length := by
      refine ⟨h0, hfit, ?_⟩
      simp
    simp only [fillStorage, newCPUStorage, defaultCPUAllocate, memcpy, hu, hz, if_false, if_true,
      hcond, and_self]
    refine ⟨_, rfl, rfl, rfl, ?_, rfl, rfl, rfl⟩
    simp [StorageImpl.contents]

theorem newCPUStorage_contents_length (host : Host) (n : Nat) :
    (newCPUStorage host n).contents.length = n := by
  by_cases hz : n = 0
  · subst hz; simp [newCPUStorage, defaultCPUAllocate, StorageImpl.contents]
  · simp [newCPUStorage, defaultCPUAllocate, StorageImpl.contents, hz]

/-- For a catalogue kind that is not endian-independent the storage is handed
to the decoder of that kind. -/
theorem fillStorage_decoder (host : Host) (st : ScalarType) (swap : Bool) (src : List Byte)
    (offset count : Int) (size_bytes : Nat) (hei : is_endian_independent st = false)
    (hcat : inCatalogue st = true) :
    fillStorage host st false swap src offset count size_bytes =
      .returned
        { storage := newCPUStorage host size_bytes
          decoder := some
            { kind := st, src_offset := offset, do_byte_swap := swap, count := count } } := by
  cases st <;> first
    | exact absurd hei (by decide)
    | exact absurd hcat (by decide)
    | simp [fillStorage]

/-- C1 (code defect, evaluation at the failing input).  Decoding a 12-byte
buffer as int32 with `offset = 0` and `count = 2^62`: `offset + count * 4`
exceeds the buffer length, yet the product wraps to 0 in 64 bits, the bounds
check passes, a storage of 0 bytes is returned and the int32 decoder is asked
to convert `2^62` elements read from the 12-byte buffer. -/
theorem fromBuffer_bounds_check_wraps :
    isSsize 4611686018427387904 ∧
    (0 : Int) + 4611686018427387904 * ((elementSize .kInt : Nat) : Int) >
      (((sampleBuffer 12).length : Nat) : Int) ∧
    THPStorage_fromBuffer sampleHost
        { obj := some (sampleBuffer 12), byte_order_str := some "native",
          count := 4611686018427387904, offset := 0, dtype_obj := .dtype .kInt } =
      .returned
        { storage :=
            { data_ptr := none, size_bytes := 0, device_type := .CPU, resizable := true,
              allocator := .defaultCPU }
          decoder := some
            { kind := .kInt, src_offset := 0, do_byte_swap := false,
              count := 4611686018427387904 } } := by
  decide

/-- The example of the spec for the bounds check: a 12-byte buffer decoded as
int32 with `offset = 4`, `count = 3` fails with the bounds error. -/
theorem fromBuffer_bounds_example :
    THPStorage_fromBuffer sampleHost
        { obj := some (sampleBuffer 12), byte_order_str := some "native",
          count := 3, offset := 4, dtype_obj := .dtype .kInt } =
      .raised (.bufferTooSmall 8 4 3) := by
  decide

/-- The fill stage on a byte range that lies inside the buffer: it returns a
storage of the computed size, and a decoder call, if any, carries the count. -/
theorem fillStorage_sized (host : Host) (st : ScalarType) (swap : Bool) (src : List Byte)
    (offset : Int) (n : Nat) (hcat : inCatalogue st = true) (h0 : 0 ≤ offset)
    (hfit : offset + n ≤ src.length) (hn : (n : Int) < 9223372036854775808) :
    ∃ d, fillStorage host st (is_endian_independent st) swap src offset
        ((n / elementSize st : Nat) : Int) n = .returned d ∧
      d.storage.size_bytes = n ∧ d.storage.contents.length = n ∧
      ∀ c, d.decoder = some c → c.count = ((n / elementSize st : Nat) : Int) := by
  by_cases hei : is_endian_independent st = true
  · have hw := elementSize_of_endian_independent hei
    rw [hei, hw, Nat.div_one]
    obtain ⟨d, hd, hdec, hsz, hcont, -⟩ := fillStorage_memcpy host st swap src offset n h0 hfit hn
    refine ⟨d, hd, hsz, ?_, ?_⟩
    · rw [hcont, List.length_take, List.length_drop]; omega
    · intro c hc; rw [hdec] at hc; cases hc
  · have hei2 : is_endian_independent st = false := by simpa using hei
    rw [hei2, fillStorage_decoder host st swap src offset _ _ hei2 hcat]
    refine ⟨_, rfl, rfl, newCPUStorage_contents_length _ _, ?_⟩
    intro c hc
    cases hc
    rfl

/-- C2.  With `count < 0`, an offset inside `[0, len]`, a catalogue kind and a
usable byte order: decoding fails with the alignment error (a ValueError) iff
`len - offset` is not a multiple of the element width; otherwise the count is
inferred as `(len - offset) / width`, a storage of exactly `len - offset` bytes
is returned, and the result is never the bounds error. -/
theorem fromBuffer_inferred_count (host : Host) (src : List Byte) (bo : Option String)
    (count offset : Int) (st : ScalarType)
    (hlen : (src.length : Int) < 9223372036854775808) (hcat : inCatalogue st = true)
    (hbo : validByteOrder st bo) (hc : isSsize count) (hneg : count < 0)
    (h0 : 0 ≤ offset) (h1 : offset ≤ src.length) :
    (THPStorage_fromBuffer host
          { obj := some src, byte_order_str := bo, count := count, offset := offset,
            dtype_obj := .dtype st } =
        .raised (.bufferNotMultiple src.length (elementSize st)) ↔
      ((src.length : Int) - offset).toNat % elementSize st ≠ 0) ∧
    (PyErr.bufferNotMultiple src.length (elementSize st)).excClass = .ValueError ∧
    (((src.length : Int) - offset).toNat % elementSize st = 0 →
      checkRange src.length offset count (elementSize st) =
          .ok (((src.length : Int) - offset).toNat,
            ((((src.length : Int) - offset).toNat / elementSize st : Nat) : Int)) ∧
      ∃ d, THPStorage_fromBuffer host
          { obj := some src, byte_order_str := bo, count := count, offset := offset,
            dtype_obj := .dtype st } = .returned d ∧
        d.storage.size_bytes = ((src.length : Int) - offset).toNat ∧
        d.storage.contents.length = ((src.length : Int) - offset).toNat ∧
        ∀ c, d.decoder = some c →
          c.count = ((((src.length : Int) - offset).toNat / elementSize st : Nat) : Int)) ∧
    (∀ a b c, THPStorage_fromBuffer host
          { obj := some src, byte_order_str := bo, count := count, offset := offset,
            dtype_obj := .dtype st } ≠ .raised (.bufferTooSmall a b c)) := by
  have ho : isSsize offset := ⟨by omega, by omega⟩
  obtain ⟨swap, -, hrun⟩ := fromBuffer_of_valid host src bo count offset st hc ho hbo
  have hcr := checkRange_infer src.length offset count (elementSize st) (elementSize_le st)
    hlen h0 h1 hneg
  rw [hcr] at hrun
  by_cases hm : ((src.length : Int) - offset).toNat % elementSize st ≠ 0
  · rw [if_pos hm] at hrun
    rw [hrun]
    refine ⟨⟨fun _ => hm, fun _ => rfl⟩, rfl, fun h => absurd h hm, ?_⟩
    intro a b c h
    cases h
  · have hm0 : ((src.length : Int) - offset).toNat % elementSize st = 0 := not_not.mp hm
    rw [if_neg hm] at hrun
    obtain ⟨d, hd, hsz, hcl, hcount⟩ := fillStorage_sized host st swap src offset
      ((src.length : Int) - offset).toNat hcat h0 (by omega) (by omega)
    have hres := hrun.trans hd
    rw [hres]
    refine ⟨⟨fun h => (by cases h), fun h => absurd hm0 h⟩, rfl,
      fun _ => ⟨hcr.trans (if_neg hm), d, rfl, hsz, hcl, hcount⟩, ?_⟩
    intro a b c h
    cases h

theorem fromBuffer_inferred_count_witness :
    ((sampleBuffer 10).length : Int) < 9223372036854775808 ∧ isSsize (-1) ∧
    THPStorage_fromBuffer sampleHost
        { obj := some (sampleBuffer 10), byte_order_str := some "native", count := -1,
          offset := 0, dtype_obj := .dtype .kInt } =
      .raised (.bufferNotMultiple (sampleBuffer 10).length (elementSize .kInt)) :=
  ⟨by decide, by decide,
    (fromBuffer_inferred_count sampleHost (sampleBuffer 10) (some "native") (-1) 0 .kInt
      (by decide) rfl (Or.inr (Or.inl rfl)) (by decide) (by decide) (by decide)
      (by decide)).1.mpr (by decide)⟩

/-- After a passed offset check the function never reports the offset error. -/
theorem checkRange_not_offset_error (len offset count : Int) (w : Nat)
    (h : ¬ (offset < 0 ∨ offset > len)) (a b : Int) :
    checkRange len offset count w ≠ .error (.offsetOutOfRange a b) := by
  unfold checkRange
  rw [if_neg h]
  by_cases hc : count < 0
  · by_cases hm : wrapU64 (wrapS64 (len - offset)) % w ≠ 0
    · simp [hc, hm]
    · simp only [hc, hm, if_true, if_false]
      split <;> simp
  · simp only [hc, if_false]
    split <;> simp

theorem fillStorage_not_offset_error (host : Host) (st : ScalarType) (ei swap : Bool)
    (src : List Byte) (offset count : Int) (size_bytes : Nat) (a b : Int) :
    fillStorage host st ei swap src offset count size_bytes ≠
      .raised (.offsetOutOfRange a b) := by
  unfold fillStorage
  cases ei
  · simp only [Bool.false_eq_true, if_false]
    split <;> simp
  · simp only [if_true]
    split <;> simp

/-- C3.  With representable `count`/`offset` and a usable byte order, decoding
is rejected with the offset error iff `offset < 0` or `offset > len`; the
rejection does not depend on `count` or on the element kind (the check comes
before the alignment and bounds checks); `offset = len` is accepted, and with
`count < 0` it yields a storage of 0 bytes. -/
theorem fromBuffer_offset_check (host : Host) (src : List Byte) (bo : Option String)
    (count offset : Int) (st : ScalarType) (hc : isSsize count) (ho : isSsize offset)
    (hbo : validByteOrder st bo) :
    ((∃ a b, THPStorage_fromBuffer host
          { obj := some src, byte_order_str := bo, count := count, offset := offset,
            dtype_obj := .dtype st } = .raised (.offsetOutOfRange a b)) ↔
      (offset < 0 ∨ offset > src.length)) ∧
    ((offset < 0 ∨ offset > src.length) →
      THPStorage_fromBuffer host
          { obj := some src, byte_order_str := bo, count := count, offset := offset,
            dtype_obj := .dtype st } = .raised (.offsetOutOfRange offset src.length)) ∧
    (offset = src.length → count < 0 → inCatalogue st = true →
      ∃ d, THPStorage_fromBuffer host
          { obj := some src, byte_order_str := bo, count := count, offset := offset,
            dtype_obj := .dtype st } = .returned d ∧
        d.storage.size_bytes = 0 ∧ d.storage.contents = []) := by
  obtain ⟨swap, -, hrun⟩ := fromBuffer_of_valid host src bo count offset st hc ho hbo
  have hout : (offset < 0 ∨ offset > src.length) →
      THPStorage_fromBuffer host
          { obj := some src, byte_order_str := bo, count := count, offset := offset,
            dtype_obj := .dtype st } = .raised (.offsetOutOfRange offset src.length) := by
    intro h
    rw [hrun, checkRange_offset _ _ _ _ h]
  refine ⟨⟨?_, fun h => ⟨_, _, hout h⟩⟩, hout, ?_⟩
  · rintro ⟨a, b, hab⟩
    by_contra hin
    rw [hrun] at hab
    have h1 := checkRange_not_offset_error src.length offset count (elementSize st) hin a b
    cases hcr : checkRange src.length offset count (elementSize st) with
    | error e =>
      rw [hcr] at hab h1
      simp only [Outcome.raised.injEq] at hab
      exact h1 (by rw [hab])
    | ok p =>
      obtain ⟨sb, n⟩ := p
      rw [hcr] at hab
      exact fillStorage_not_offset_error _ _ _ _ _ _ _ _ _ _ hab
  · intro heq hneg hcat
    have hlen : (src.length : Int) < 9223372036854775808 := by
      have := ho.2
      omega
    have hcr := checkRange_infer src.length offset count (elementSize st) (elementSize_le st)
      hlen (by omega) (by omega) hneg
    have hz : ((src.length : Int) - offset).toNat = 0 := by omega
    rw [hz, if_neg (by simp)] at hcr
    rw [hcr] at hrun
    obtain ⟨d, hd, hsz, hcl, -⟩ := fillStorage_sized host st swap src offset 0 hcat (by omega)
      (by omega) (by decide)
    exact ⟨d, hrun.trans hd, hsz, List.eq_nil_of_length_eq_zero hcl⟩

theorem fromBuffer_offset_check_witness :
    isSsize (-1) ∧ isSsize 12 ∧ validByteOrder .kInt (some "big") ∧
    (∃ d, THPStorage_fromBuffer sampleHost
        { obj := some (sampleBuffer 12), byte_order_str := some "big", count := -1,
          offset := 12, dtype_obj := .dtype .kInt } = .returned d ∧
      d.storage.size_bytes = 0 ∧ d.storage.contents = []) :=
  ⟨by decide, by decide, Or.inr (Or.inr (Or.inl rfl)),
    (fromBuffer_offset_check sampleHost (sampleBuffer 12) (some "big") (-1) 12 .kInt
      (by decide) (by decide) (Or.inr (Or.inr (Or.inl rfl)))).2.2 (by decide) (by decide) rfl⟩

/-- The range check raises only its own three errors. -/
theorem checkRange_not_missing (len offset count : Int) (w : Nat) :
    checkRange len offset count w ≠ .error .missingByteOrder := by
  unfold checkRange
  by_cases h : offset < 0 ∨ offset > len
  · simp [h]
  · rw [if_neg h]
    by_cases hc : count < 0
    · by_cases hm : wrapU64 (wrapS64 (len - offset)) % w ≠ 0
      · simp [hc, hm]
      · simp only [hc, hm, if_true, if_false]
        split <;> simp
    · simp only [hc, if_false]
      split <;> simp

theorem fillStorage_not_missing (host : Host) (st : ScalarType) (ei swap : Bool)
    (src : List Byte) (offset count : Int) (size_bytes : Nat) :
    fillStorage host st ei swap src offset count size_bytes ≠ .raised .missingByteOrder := by
  unfold fillStorage
  cases ei
  · simp only [Bool.false_eq_true, if_false]
    split <;> simp
  · simp only [if_true]
    split <;> simp

/-- C4 (counterexample).  Bool has element width 1, yet decoding a buffer as
bool without `byte_order` fails with the missing-argument error: the kinds
for which `byte_order` may be omitted are not the kinds of width 1. -/
theorem fromBuffer_bool_needs_byte_order :
    elementSize .kBool = 1 ∧
    THPStorage_fromBuffer sampleHost
        { obj := some (sampleBuffer 4), byte_order_str := none, count := -1, offset := 0,
          dtype_obj := .dtype .kBool } = .raised .missingByteOrder := by
  decide

/-- C4 (amended).  `byte_order` may be omitted exactly for the scalar types
the source lists as endian-independent: byte, int8 and the four 8-bit float
formats.  For each of them, decoding a buffer with no `byte_order` (and with
the default `count`, `offset`) returns a storage holding the bytes of the buffer;
for every other scalar type, bool included, an absent `byte_order` fails with
the missing-argument error whatever the buffer object, `count` and `offset`
are (so before the buffer is examined). -/
theorem fromBuffer_byte_order_optional (host : Host) (st : ScalarType) :
    (is_endian_independent st = true ↔
      st ∈ [ScalarType.kByte, .kChar, .kFloat8_e5m2, .kFloat8_e5m2fnuz, .kFloat8_e4m3fn,
        .kFloat8_e4m3fnuz]) ∧
    (is_endian_independent st = false →
      ∀ (obj : Option (List Byte)) (count offset : Int), isSsize count → isSsize offset →
        THPStorage_fromBuffer host
            { obj := obj, byte_order_str := none, count := count, offset := offset,
              dtype_obj := .dtype st } = .raised .missingByteOrder) ∧
    (is_endian_independent st = true →
      (∀ (obj : Option (List Byte)) (count offset : Int),
        THPStorage_fromBuffer host
            { obj := obj, byte_order_str := none, count := count, offset := offset,
              dtype_obj := .dtype st } ≠ .raised .missingByteOrder) ∧
      ∀ src : List Byte, (src.length : Int) < 9223372036854775808 →
        ∃ d, THPStorage_fromBuffer host
            { obj := some src, byte_order_str := none, count := -1, offset := 0,
              dtype_obj := .dtype st } = .returned d ∧
          d.decoder = none ∧ d.storage.size_bytes = src.length ∧
          d.storage.contents = src) := by
  refine ⟨by cases st <;> decide, ?_, ?_⟩
  · intro hei obj count offset hc ho
    simp [THPStorage_fromBuffer, hc, ho, hei]
  · intro hei
    refine ⟨?_, ?_⟩
    · intro obj count offset
      by_cases hp : isSsize count ∧ isSsize offset
      · cases obj with
        | none => simp [THPStorage_fromBuffer, hp, hei, do_byte_swap]
        | some src =>
          obtain ⟨swap, -, hrun⟩ := fromBuffer_of_valid host src none count offset st hp.1 hp.2
            (Or.inl hei)
          rw [hrun]
          cases hcr : checkRange src.length offset count (elementSize st) with
          | error e =>
            intro he
            simp only [Outcome.raised.injEq] at he
            rw [he] at hcr
            exact checkRange_not_missing _ _ _ _ hcr
          | ok p => exact fillStorage_not_missing _ _ _ _ _ _ _ _
      · simp [THPStorage_fromBuffer, hp]
    · intro src hlen
      have hw := elementSize_of_endian_independent hei
      obtain ⟨swap, -, hrun⟩ := fromBuffer_of_valid host src none (-1) 0 st (by decide)
        (by decide) (Or.inl hei)
      have hcr := checkRange_infer src.length 0 (-1) (elementSize st) (elementSize_le st)
        hlen (le_refl 0) (by omega) (by decide)
      rw [hw] at hcr
      simp only [Nat.mod_one, ne_eq, not_true_eq_false, if_false, Nat.div_one, sub_zero,
        Int.toNat_ofNat] at hcr
      rw [hw, hcr, hei] at hrun
      obtain ⟨d, hd, hdec, hsz, hcont, -⟩ := fillStorage_memcpy host st swap src 0 src.length
        (le_refl 0) (by omega) hlen
      refine ⟨d, hrun.trans hd, hdec, hsz, ?_⟩
      rw [hcont]
      simp

theorem fromBuffer_byte_order_optional_witness :
    is_endian_independent .kBool = false ∧ isSsize (-1) ∧ isSsize 0 ∧
    THPStorage_fromBuffer sampleHost
        { obj := none, byte_order_str := none, count := -1, offset := 0,
          dtype_obj := .dtype .kBool } = .raised .missingByteOrder ∧
    is_endian_independent .kFloat8_e4m3fn = true ∧
    ((sampleBuffer 3).length : Int) < 9223372036854775808 ∧
    ∃ d, THPStorage_fromBuffer sampleHost
        { obj := some (sampleBuffer 3), byte_order_str := none, count := -1, offset := 0,
          dtype_obj := .dtype .kFloat8_e4m3fn } = .returned d ∧
      d.decoder = none ∧ d.storage.size_bytes = (sampleBuffer 3).length ∧
      d.storage.contents = sampleBuffer 3 :=
  ⟨rfl, by decide, by decide,
    (fromBuffer_byte_order_optional sampleHost .kBool).2.1 rfl none (-1) 0 (by decide)
      (by decide),
    rfl, by decide,
    ((fromBuffer_byte_order_optional sampleHost .kFloat8_e4m3fn).2.2 rfl).2 (sampleBuffer 3)
      (by decide)⟩

theorem do_byte_swap_eq (host : Host) (s : String) :
    do_byte_swap host false (some s) =
      match requestedOrder host s with
      | some order => .returned (decide (order ≠ host.THP_nativeByteOrder))
      | none => .raised (.invalidByteOrder s) := by
  unfold do_byte_swap requestedOrder
  by_cases h1 : s = "native"
  · simp [h1]
  · by_cases h2 : s = "big"
    · cases hn : host.THP_nativeByteOrder <;> simp [h2]
    · by_cases h3 : s = "little"
      · cases hn : host.THP_nativeByteOrder <;> simp [h3]
      · simp [h1, h2, h3]

theorem requestedOrder_some {host : Host} {s : String} {order : THPByteOrder}
    (h : requestedOrder host s = some order) : s = "native" ∨ s = "big" ∨ s = "little" := by
  unfold requestedOrder at h
  by_cases h1 : s = "native"
  · exact Or.inl h1
  · by_cases h2 : s = "big"
    · exact Or.inr (Or.inl h2)
    · by_cases h3 : s = "little"
      · exact Or.inr (Or.inr h3)
      · simp [h1, h2, h3] at h

/-- Decoding a catalogue kind that is not endian-independent, on an input that
passes the validation of the spec: the storage and the decoder call. -/
theorem fromBuffer_decoder_call (host : Host) (src : List Byte) (s : String)
    (count offset : Int) (st : ScalarType) (order : THPByteOrder)
    (hei : is_endian_independent st = false) (hcat : inCatalogue st = true)
    (hreq : requestedOrder host s = some order)
    (hlen : (src.length : Int) < 9223372036854775808) (hc : isSsize count)
    (hv : passesValidation src.length offset count (elementSize st)) :
    THPStorage_fromBuffer host
        { obj := some src, byte_order_str := some s, count := count, offset := offset,
          dtype_obj := .dtype st } =
      .returned
        { storage := newCPUStorage host
            (decodedCount src.length offset count (elementSize st) * elementSize st)
          decoder := some
            { kind := st, src_offset := offset
              do_byte_swap := decide (order ≠ host.THP_nativeByteOrder)
              count := (decodedCount src.length offset count (elementSize st) : Nat) } } := by
  obtain ⟨h0, h1, hfit⟩ := hv
  have ho : isSsize offset := ⟨by omega, by omega⟩
  have hbo : validByteOrder st (some s) := by
    rcases requestedOrder_some hreq with h | h | h
    · exact Or.inr (Or.inl (by rw [h]))
    · exact Or.inr (Or.inr (Or.inl (by rw [h])))
    · exact Or.inr (Or.inr (Or.inr (by rw [h])))
  obtain ⟨swap, hswap, hrun⟩ := fromBuffer_of_valid host src (some s) count offset st hc ho hbo
  have hstage := do_byte_swap_eq host s
  rw [hreq] at hstage
  rw [hei, hstage] at hswap
  simp only [Outcome.returned.injEq] at hswap
  rw [hei] at hrun
  rw [hrun]
  by_cases hneg : count < 0
  · rw [if_pos hneg] at hfit
    have hcr := checkRange_infer src.length offset count (elementSize st) (elementSize_le st)
      hlen h0 h1 hneg
    rw [if_neg (not_not.mpr hfit)] at hcr
    have hn : decodedCount src.length offset count (elementSize st) =
        ((src.length : Int) - offset).toNat / elementSize st := by
      simp [decodedCount, hneg]
    have hmul : ((src.length : Int) - offset).toNat / elementSize st * elementSize st =
        ((src.length : Int) - offset).toNat :=
      Nat.div_mul_cancel (Nat.dvd_of_mod_eq_zero hfit)
    rw [hcr, hn, hmul, ← hswap]
    exact fillStorage_decoder host st _ src offset _ _ hei hcat
  · rw [if_neg hneg] at hfit
    have hcr := checkRange_explicit src.length offset count (elementSize st)
      (elementSize_pos st) (elementSize_le st) hlen h0 (by omega) hfit
    have hn : decodedCount src.length offset count (elementSize st) = count.toNat := by
      simp [decodedCount, hneg]
    have hcount : ((count.toNat : Nat) : Int) = count := Int.toNat_of_nonneg (by omega)
    rw [hcr, hn, hcount, ← hswap]
    exact fillStorage_decoder host st _ src offset _ _ hei hcat

/-- C5.  For a scalar type that is not endian-independent the swap flag is
computed from the `byte_order` token and the native order of the process
alone: the flag is true iff the requested order differs from the native one
("native" never swaps, "big" swaps iff the host is little-endian, "little"
swaps iff the host is big-endian).  Every storage the function returns comes
with a decoder call carrying exactly that flag, and for a catalogue kind and
an input that passes validation the function does return, with the flag, the
element count and the storage size as stated.  Any other token fails with the
invalid-byte-order error (a ValueError), so no storage is returned. -/
theorem fromBuffer_swap_flag (host : Host) (st : ScalarType) (s : String)
    (hei : is_endian_independent st = false) :
    (do_byte_swap host (is_endian_independent st) (some s) =
      match requestedOrder host s with
      | some order => .returned (decide (order ≠ host.THP_nativeByteOrder))
      | none => .raised (.invalidByteOrder s)) ∧
    (s = "native" → do_byte_swap host (is_endian_independent st) (some s) = .returned false) ∧
    (s = "big" → do_byte_swap host (is_endian_independent st) (some s) =
      .returned (decide (host.THP_nativeByteOrder = .THP_LITTLE_ENDIAN))) ∧
    (s = "little" → do_byte_swap host (is_endian_independent st) (some s) =
      .returned (decide (host.THP_nativeByteOrder = .THP_BIG_ENDIAN))) ∧
    (∀ order, requestedOrder host s = some order →
      ∀ (obj : Option (List Byte)) (count offset : Int) (d : Decoded),
        THPStorage_fromBuffer host
            { obj := obj, byte_order_str := some s, count := count, offset := offset,
              dtype_obj := .dtype st } = .returned d →
        ∃ c, d.decoder = some c ∧ c.kind = st ∧
          (c.do_byte_swap = true ↔ order ≠ host.THP_nativeByteOrder)) ∧
    (∀ order, requestedOrder host s = some order → inCatalogue st = true →
      ∀ (src : List Byte) (count offset : Int),
        (src.length : Int) < 9223372036854775808 → isSsize count →
        passesValidation src.length offset count (elementSize st) →
        ∃ d c, THPStorage_fromBuffer host
            { obj := some src, byte_order_str := some s, count := count, offset := offset,
              dtype_obj := .dtype st } = .returned d ∧
          d.decoder = some c ∧ c.kind = st ∧
          (c.do_byte_swap = true ↔ order ≠ host.THP_nativeByteOrder) ∧
          c.count = (decodedCount src.length offset count (elementSize st) : Nat) ∧
          d.storage.size_bytes =
            decodedCount src.length offset count (elementSize st) * elementSize st) ∧
    (requestedOrder host s = none →
      (PyErr.invalidByteOrder s).excClass = .ValueError ∧
      ∀ (obj : Option (List Byte)) (count offset : Int), isSsize count → isSsize offset →
        THPStorage_fromBuffer host
            { obj := obj, byte_order_str := some s, count := count, offset := offset,
              dtype_obj := .dtype st } = .raised (.invalidByteOrder s)) := by
  have hstage := do_byte_swap_eq host s
  rw [hei]
  refine ⟨hstage, ?_, ?_, ?_, ?_, ?_, ?_⟩
  · intro h; subst h; simp [do_byte_swap]
  · intro h; subst h
    cases hn : host.THP_nativeByteOrder <;> simp [do_byte_swap, hn]
  · intro h; subst h
    cases hn : host.THP_nativeByteOrder <;> simp [do_byte_swap, hn]
  · intro order hreq obj count offset d hd
    rw [hreq] at hstage
    by_cases hp : isSsize count ∧ isSsize offset
    · cases obj with
      | none => simp [THPStorage_fromBuffer, hp, hei, hstage] at hd
      | some src =>
        simp only [THPStorage_fromBuffer, hp, hei, hstage, and_self, not_true_eq_false,
          if_false, Option.isSome_some, or_true] at hd
        cases hcr : checkRange src.length offset count (elementSize st) with
        | error e => rw [hcr] at hd; cases hd
        | ok p =>
          rw [hcr] at hd
          simp only [fillStorage, Bool.false_eq_true, if_false] at hd
          split at hd
          · simp only [Outcome.returned.injEq] at hd
            subst hd
            exact ⟨_, rfl, rfl, by simp⟩
          · cases hd
    · simp [THPStorage_fromBuffer, hp] at hd
  · intro order hreq hcat src count offset hlen hc hv
    exact ⟨_, _, fromBuffer_decoder_call host src s count offset st order hei hcat hreq hlen hc
      hv, rfl, rfl, by simp, rfl, rfl⟩
  · intro hreq
    rw [hreq] at hstage
    refine ⟨rfl, ?_⟩
    intro obj count offset hc ho
    simp [THPStorage_fromBuffer, hc, ho, hei, hstage]

theorem fromBuffer_swap_flag_witness :
    is_endian_independent .kInt = false ∧
    requestedOrder sampleHost "big" = some .THP_BIG_ENDIAN ∧ inCatalogue .kInt = true ∧
    ((sampleBuffer 12).length : Int) < 9223372036854775808 ∧ isSsize 2 ∧
    passesValidation (sampleBuffer 12).length 4 2 (elementSize .kInt) ∧
    ∃ d c, THPStorage_fromBuffer sampleHost
        { obj := some (sampleBuffer 12), byte_order_str := some "big", count := 2,
          offset := 4, dtype_obj := .dtype .kInt } = .returned d ∧
      d.decoder = some c ∧ c.kind = .kInt ∧
      (c.do_byte_swap = true ↔
        THPByteOrder.THP_BIG_ENDIAN ≠ sampleHost.THP_nativeByteOrder) ∧
      c.count = (decodedCount (sampleBuffer 12).length 4 2 (elementSize .kInt) : Nat) ∧
      d.storage.size_bytes =
        decodedCount (sampleBuffer 12).length 4 2 (elementSize .kInt) * elementSize .kInt :=
  ⟨rfl, by decide, rfl, by decide, by decide, by decide,
    (fromBuffer_swap_flag sampleHost .kInt "big" rfl).2.2.2.2.2.1 .THP_BIG_ENDIAN (by decide)
      rfl (sampleBuffer 12) 2 4 (by decide) (by decide) (by decide)⟩

/-- C6.  For an endian-independent scalar type and an input that passes the
validation of the spec, the function returns a new CPU storage (resizable,
on the default allocator, no decoder involved) of exactly `count * width` bytes
whose contents are the bytes `buffer[offset .. offset + count * width)` of the
input, where `count` is the given or the inferred element count.  The buffer
is an immutable value of the model: the function only reads it. -/
theorem fromBuffer_verbatim_copy (host : Host) (src : List Byte) (bo : Option String)
    (count offset : Int) (st : ScalarType) (hei : is_endian_independent st = true)
    (hlen : (src.length : Int) < 9223372036854775808) (hc : isSsize count)
    (hv : passesValidation src.length offset count (elementSize st)) :
    ∃ d, THPStorage_fromBuffer host
        { obj := some src, byte_order_str := bo, count := count, offset := offset,
          dtype_obj := .dtype st } = .returned d ∧
      d.decoder = none ∧
      d.storage.size_bytes = decodedCount src.length offset count (elementSize st) *
        elementSize st ∧
      d.storage.contents = (src.drop offset.toNat).take
        (decodedCount src.length offset count (elementSize st) * elementSize st) ∧
      d.storage.contents.length = decodedCount src.length offset count (elementSize st) *
        elementSize st ∧
      d.storage.device_type = .CPU ∧ d.storage.resizable = true ∧
      d.storage.allocator = .defaultCPU := by
  obtain ⟨h0, h1, hfit⟩ := hv
  have hw := elementSize_of_endian_independent hei
  have ho : isSsize offset := ⟨by omega, by omega⟩
  obtain ⟨swap, -, hrun⟩ := fromBuffer_of_valid host src bo count offset st hc ho (Or.inl hei)
  rw [hw] at hrun hfit ⊢
  rw [hei] at hrun
  simp only [Nat.mul_one]
  by_cases hneg : count < 0
  · have hcr := checkRange_infer src.length offset count 1 (by decide) hlen h0 h1 hneg
    simp only [Nat.mod_one, ne_eq, not_true_eq_false, if_false, Nat.div_one] at hcr
    rw [hcr] at hrun
    obtain ⟨d, hd, hdec, hsz, hcont, hdev, hres, hal⟩ := fillStorage_memcpy host st swap src
      offset ((src.length : Int) - offset).toNat h0 (by omega) (by omega)
    have hn : decodedCount src.length offset count 1 = ((src.length : Int) - offset).toNat := by
      simp [decodedCount, hneg]
    rw [hn]
    refine ⟨d, hrun.trans hd, hdec, hsz, hcont, ?_, hdev, hres, hal⟩
    rw [hcont, List.length_take, List.length_drop]
    omega
  · rw [if_neg hneg] at hfit
    have hfit' : offset + count * ((1 : Nat) : Int) ≤ src.length := by simpa using hfit
    have hcr := checkRange_explicit src.length offset count 1 (by decide) (by decide) hlen h0
      (by omega) hfit'
    simp only [Nat.mul_one] at hcr
    rw [hcr] at hrun
    have hcount : ((count.toNat : Nat) : Int) = count := Int.toNat_of_nonneg (by omega)
    obtain ⟨d, hd, hdec, hsz, hcont, hdev, hres, hal⟩ := fillStorage_memcpy host st swap src
      offset count.toNat h0 (by omega) (by omega)
    rw [hcount] at hd
    have hn : decodedCount src.length offset count 1 = count.toNat := by
      simp [decodedCount, hneg]
    rw [hn]
    refine ⟨d, hrun.trans hd, hdec, hsz, hcont, ?_, hdev, hres, hal⟩
    rw [hcont, List.length_take, List.length_drop]
    omega

theorem fromBuffer_verbatim_copy_witness :
    is_endian_independent .kByte = true ∧
    ((sampleBuffer 12).length : Int) < 9223372036854775808 ∧ isSsize 5 ∧
    passesValidation (sampleBuffer 12).length 3 5 (elementSize .kByte) ∧
    ∃ d, THPStorage_fromBuffer sampleHost
        { obj := some (sampleBuffer 12), byte_order_str := none, count := 5, offset := 3,
          dtype_obj := .dtype .kByte } = .returned d ∧
      d.decoder = none ∧
      d.storage.size_bytes = decodedCount (sampleBuffer 12).length 3 5 (elementSize .kByte) *
        elementSize .kByte ∧
      d.storage.contents = ((sampleBuffer 12).drop (3 : Int).toNat).take
        (decodedCount (sampleBuffer 12).length 3 5 (elementSize .kByte) *
          elementSize .kByte) ∧
      d.storage.contents.length =
        decodedCount (sampleBuffer 12).length 3 5 (elementSize .kByte) * elementSize .kByte ∧
      d.storage.device_type = .CPU ∧ d.storage.resizable = true ∧
      d.storage.allocator = .defaultCPU :=
  ⟨rfl, by decide, by decide, by decide,
    fromBuffer_verbatim_copy sampleHost (sampleBuffer 12) none 5 3 .kByte rfl (by decide)
      (by decide) (by decide)⟩

/-! ## `THPStorage_byteswap` -/

theorem length_toLE (w x : Nat) : (toLE w x).length = w := by
  induction w generalizing x with
  | zero => rfl
  | succ n ih => simp [toLE, ih]

/-- Writing a value read from `w` bytes gives back those bytes. -/
theorem toLE_fromLE (bs : List Byte) : toLE bs.length (fromLE bs) = bs := by
  induction bs with
  | nil => rfl
  | cons b bs ih =>
    have hb := b.isLt
    have h1 : (b.val + 256 * fromLE bs) % 256 = b.val := by omega
    have h2 : (b.val + 256 * fromLE bs) / 256 = fromLE bs := by omega
    simp only [List.length_cons, fromLE, toLE, h1, h2, ih]
    congr 1
    apply Fin.ext
    simp [Fin.ofNat, Nat.mod_eq_of_lt hb]

/-- On either host order, loading a word, applying `thp_bswap` and storing the
result reverses the bytes of the word. -/
theorem storeWord_bswap_loadWord (native : THPByteOrder) (w : Nat) (word : List Byte)
    (hw : word.length = w) :
    storeWord native w (thp_bswap w (loadWord native word)) = word.reverse := by
  subst hw
  have hr : word.reverse.length = word.length := List.length_reverse word
  cases native with
  | THP_LITTLE_ENDIAN =>
    simp only [storeWord, loadWord, thp_bswap]
    rw [toLE_fromLE word]
    rw [← hr, toLE_fromLE word.reverse]
  | THP_BIG_ENDIAN =>
    simp only [storeWord, loadWord, thp_bswap]
    have h1 : toLE word.length (fromLE word.reverse) = word.reverse := by
      rw [← hr, toLE_fromLE word.reverse]
    rw [h1, List.reverse_reverse, toLE_fromLE word]

theorem reversesWord_bswap16 (native : THPByteOrder) : ReversesWord native 2 thp_bswap16 :=
  fun word hw => storeWord_bswap_loadWord native 2 word hw

theorem reversesWord_bswap32 (native : THPByteOrder) : ReversesWord native 4 thp_bswap32 :=
  fun word hw => storeWord_bswap_loadWord native 4 word hw

theorem reversesWord_bswap64 (native : THPByteOrder) : ReversesWord native 8 thp_bswap64 :=
  fun word hw => storeWord_bswap_loadWord native 8 word hw

theorem length_reverseWords (w : Nat) (n : Nat) (bs : List Byte) :
    (reverseWords w n bs).length = bs.length := by
  induction n generalizing bs with
  | zero => rfl
  | succ n ih =>
    simp only [reverseWords, List.length_append, List.length_reverse, List.length_take, ih,
      List.length_drop]
    omega

/-- The loop reverses the `n` words that start at word index `i`. -/
theorem byteswapLoop_eq (native : THPByteOrder) (w : Nat) (bswap : Nat → Nat)
    (hb : ReversesWord native w bswap) (n i : Nat) (d : DataPtr)
    (hfit : i * w + n * w ≤ d.bytes.length) :
    byteswapLoop native w bswap n i (some d) =
      some (some { d with
        bytes := d.bytes.take (i * w) ++ reverseWords w n (d.bytes.drop (i * w)) }) := by
  induction n generalizing i d with
  | zero =>
    simp [byteswapLoop, reverseWords]
  | succ n ih =>
    have hmul : (n + 1) * w = n * w + w := Nat.succ_mul n w
    have hmul' : (i + 1) * w = i * w + w := Nat.succ_mul i w
    have hword : ((d.bytes.drop (i * w)).take w).length = w := by
      rw [List.length_take, List.length_drop]; omega
    have hin : i * w + w ≤ d.bytes.length := by omega
    have hpre : (d.bytes.take (i * w)).length = i * w := by
      rw [List.length_take]; omega
    simp only [byteswapLoop, swapWordAt, hin, if_true, hb _ hword]
    rw [ih]
    · simp only [DataPtr.mk.injEq, Option.some.injEq, true_and, reverseWords]
      have hlen : (d.bytes.take (i * w) ++ ((d.bytes.drop (i * w)).take w).reverse).length =
          (i + 1) * w := by
        rw [List.length_append, List.length_reverse, hpre, hword, hmul']
      rw [List.take_left' hlen, List.drop_left' hlen, List.drop_drop, List.append_assoc]
    · simp only [List.length_append, List.length_reverse, hpre, hword, List.length_drop]
      omega

/-- Byte `j` of word `i` after the reversal is byte `w - 1 - j` of word `i`
before. -/
theorem reverseWords_getElem? (w n : Nat) (bs : List Byte) (hfit : n * w ≤ bs.length)
    (i j : Nat) (hi : i < n) (hj : j < w) :
    (reverseWords w n bs)[i * w + j]? = bs[i * w + (w - 1 - j)]? := by
  induction n generalizing bs i with
  | zero => omega
  | succ n ih =>
    have hmul : (n + 1) * w = n * w + w := Nat.succ_mul n w
    have hlenr : ((bs.take w).reverse).length = w := by
      rw [List.length_reverse, List.length_take]; omega
    have hlent : (bs.take w).length = w := by
      rw [List.length_take]; omega
    simp only [reverseWords]
    cases i with
    | zero =>
      simp only [Nat.zero_mul, Nat.zero_add]
      rw [List.getElem?_append_left (by omega), List.getElem?_reverse (by omega), hlent,
        List.getElem?_take_of_lt (by omega)]
    | succ i =>
      have hmul' : (i + 1) * w = i * w + w := Nat.succ_mul i w
      rw [List.getElem?_append_right (by omega), hlenr]
      have hidx : (i + 1) * w + j - w = i * w + j := by omega
      rw [hidx, ih (bs.drop w) (by rw [List.length_drop]; omega) i (by omega),
        List.getElem?_drop]
      congr 1
      omega

/-- Reversing the words twice gives the list back. -/
theorem reverseWords_reverseWords (w n : Nat) (bs : List Byte) (hfit : n * w ≤ bs.length) :
    reverseWords w n (reverseWords w n bs) = bs := by
  induction n generalizing bs with
  | zero => rfl
  | succ n ih =>
    have hmul : (n + 1) * w = n * w + w := Nat.succ_mul n w
    have hlenr : ((bs.take w).reverse).length = w := by
      rw [List.length_reverse, List.length_take]; omega
    simp only [reverseWords]
    rw [List.take_left' hlenr, List.drop_left' hlenr, List.reverse_reverse,
      ih (bs.drop w) (by rw [List.length_drop]; omega), List.take_append_drop]

/-- Bytes from the end of the reversed words on are as they were. -/
theorem reverseWords_getElem?_ge (w n : Nat) (bs : List Byte) (hfit : n * w ≤ bs.length)
    (k : Nat) (hk : n * w ≤ k) : (reverseWords w n bs)[k]? = bs[k]? := by
  induction n generalizing bs k with
  | zero => rfl
  | succ n ih =>
    have hmul : (n + 1) * w = n * w + w := Nat.succ_mul n w
    have hlenr : ((bs.take w).reverse).length = w := by
      rw [List.length_reverse, List.length_take]; omega
    simp only [reverseWords]
    rw [List.getElem?_append_right (by omega), hlenr,
      ih (bs.drop w) (by rw [List.length_drop]; omega) (k - w) (by omega), List.getElem?_drop]
    congr 1
    omega

theorem swappedStorage_addressable (w : Nat) (s : StorageImpl) (hs : s.addressable) :
    (swappedStorage w s).addressable := by
  unfold StorageImpl.addressable at *
  cases hp : s.data_ptr with
  | none => simpa [swappedStorage, StorageImpl.contents, StorageImpl.nbytes, hp] using hs
  | some d =>
    simp only [StorageImpl.contents, hp] at hs
    simp [swappedStorage, StorageImpl.contents, StorageImpl.nbytes, hp, length_reverseWords]
    exact hs

/-- On a storage whose pointer addresses at least `nbytes` bytes, with `nbytes`
a multiple of the word size, the loop of `THPStorage_byteswap` ends normally
and leaves the storage with its words reversed. -/
theorem afterLoop_byteswapLoop_addressable (native : THPByteOrder) (w : Nat)
    (bswap : Nat → Nat) (hb : ReversesWord native w bswap) (s : StorageImpl)
    (hs : s.addressable) (hdiv : s.nbytes % w = 0) :
    afterLoop s (byteswapLoop native w bswap (s.nbytes / w) 0 s.data_ptr) =
      .returned () (swappedStorage w s) := by
  have hmul : s.nbytes / w * w = s.nbytes := Nat.div_mul_cancel (Nat.dvd_of_mod_eq_zero hdiv)
  unfold StorageImpl.addressable at hs
  cases hp : s.data_ptr with
  | none =>
    simp only [StorageImpl.contents, hp, List.length_nil] at hs
    have hz : s.nbytes = 0 := by omega
    have hq : s.nbytes / w = 0 := by rw [hz]; exact Nat.zero_div w
    simp [hq, byteswapLoop, afterLoop, swappedStorage, hp]
  | some d =>
    simp only [StorageImpl.contents, hp] at hs
    rw [byteswapLoop_eq native w bswap hb (s.nbytes / w) 0 d (by omega)]
    simp [afterLoop, swappedStorage, hp]

/-- On a backed storage whose size is a multiple of the word size, the loop
of `THPStorage_byteswap` ends normally and leaves the storage with its words
reversed. -/
theorem afterLoop_byteswapLoop (native : THPByteOrder) (w : Nat) (bswap : Nat → Nat)
    (hb : ReversesWord native w bswap) (s : StorageImpl) (hs : s.backed)
    (hdiv : s.nbytes % w = 0) :
    afterLoop s (byteswapLoop native w bswap (s.nbytes / w) 0 s.data_ptr) =
      .returned () (swappedStorage w s) := by
  have hmul : s.nbytes / w * w = s.nbytes := Nat.div_mul_cancel (Nat.dvd_of_mod_eq_zero hdiv)
  unfold StorageImpl.backed at hs
  cases hp : s.data_ptr with
  | none =>
    simp only [StorageImpl.contents, hp, List.length_nil] at hs
    have hq : s.nbytes / w = 0 := by rw [← hs]; exact Nat.zero_div w
    simp [hq, byteswapLoop, afterLoop, swappedStorage, hp]
  | some d =>
    simp only [StorageImpl.contents, hp] at hs
    rw [byteswapLoop_eq native w bswap hb (s.nbytes / w) 0 d (by omega)]
    simp [afterLoop, swappedStorage, hp]

/-- The method with `elem_size = 2`: the length check, then the 16-bit loop. -/
theorem byteswap_two (host : Host) (s : StorageImpl) :
    THPStorage_byteswap host s [.long 2] =
      if s.nbytes % 2 ≠ 0 then .raised (.lengthNotMultiple 2) s
      else afterLoop s (byteswapLoop host.THP_nativeByteOrder 2 thp_bswap16 (s.nbytes / 2) 0
        s.data_ptr) := by
  rfl

/-- The method with `elem_size = 4`: the length check, then the 32-bit loop. -/
theorem byteswap_four (host : Host) (s : StorageImpl) :
    THPStorage_byteswap host s [.long 4] =
      if s.nbytes % 4 ≠ 0 then .raised (.lengthNotMultiple 4) s
      else afterLoop s (byteswapLoop host.THP_nativeByteOrder 4 thp_bswap32 (s.nbytes / 4) 0
        s.data_ptr) := by
  rfl

/-- The method with `elem_size = 8`: the length check, then the 64-bit loop. -/
theorem byteswap_eight (host : Host) (s : StorageImpl) :
    THPStorage_byteswap host s [.long 8] =
      if s.nbytes % 8 ≠ 0 then .raised (.lengthNotMultiple 8) s
      else afterLoop s (byteswapLoop host.THP_nativeByteOrder 8 thp_bswap64 (s.nbytes / 8) 0
        s.data_ptr) := by
  rfl

/-- The method on a backed storage with `elem_size` 2, 4 or 8 dividing
`nbytes`. -/
theorem byteswap_eq_swapped (host : Host) (s : StorageImpl) (hs : s.backed) (w : Nat)
    (hw : w = 2 ∨ w = 4 ∨ w = 8) (hdiv : s.nbytes % w = 0) :
    THPStorage_byteswap host s [.long (w : Int)] = .returned () (swappedStorage w s) := by
  rcases hw with rfl | rfl | rfl
  · have h := afterLoop_byteswapLoop host.THP_nativeByteOrder 2 thp_bswap16
      (reversesWord_bswap16 _) s hs hdiv
    exact (byteswap_two host s).trans ((if_neg (not_not.mpr hdiv)).trans h)
  · have h := afterLoop_byteswapLoop host.THP_nativeByteOrder 4 thp_bswap32
      (reversesWord_bswap32 _) s hs hdiv
    exact (byteswap_four host s).trans ((if_neg (not_not.mpr hdiv)).trans h)
  · have h := afterLoop_byteswapLoop host.THP_nativeByteOrder 8 thp_bswap64
      (reversesWord_bswap64 _) s hs hdiv
    exact (byteswap_eight host s).trans ((if_neg (not_not.mpr hdiv)).trans h)

/-- The method with `elem_size` 2, 4 or 8 dividing `nbytes`, on a storage whose
pointer addresses at least `nbytes` bytes. -/
theorem byteswap_eq_swapped_addressable (host : Host) (s : StorageImpl) (hs : s.addressable)
    (w : Nat) (hw : w = 2 ∨ w = 4 ∨ w = 8) (hdiv : s.nbytes % w = 0) :
    THPStorage_byteswap host s [.long (w : Int)] = .returned () (swappedStorage w s) := by
  rcases hw with rfl | rfl | rfl
  · have h := afterLoop_byteswapLoop_addressable host.THP_nativeByteOrder 2 thp_bswap16
      (reversesWord_bswap16 _) s hs hdiv
    exact (byteswap_two host s).trans ((if_neg (not_not.mpr hdiv)).trans h)
  · have h := afterLoop_byteswapLoop_addressable host.THP_nativeByteOrder 4 thp_bswap32
      (reversesWord_bswap32 _) s hs hdiv
    exact (byteswap_four host s).trans ((if_neg (not_not.mpr hdiv)).trans h)
  · have h := afterLoop_byteswapLoop_addressable host.THP_nativeByteOrder 8 thp_bswap64
      (reversesWord_bswap64 _) s hs hdiv
    exact (byteswap_eight host s).trans ((if_neg (not_not.mpr hdiv)).trans h)

theorem swappedStorage_involutive (w : Nat) (s : StorageImpl) (hs : s.addressable)
    (hdiv : s.nbytes % w = 0) : swappedStorage w (swappedStorage w s) = s := by
  have hmul : s.nbytes / w * w = s.nbytes := Nat.div_mul_cancel (Nat.dvd_of_mod_eq_zero hdiv)
  unfold StorageImpl.addressable at hs
  cases hp : s.data_ptr with
  | none =>
    cases s
    simp_all [swappedStorage]
  | some d =>
    simp only [StorageImpl.contents, hp] at hs
    have hrr := reverseWords_reverseWords w (s.nbytes / w) d.bytes (by omega)
    cases s
    simp_all [swappedStorage, StorageImpl.nbytes]

/-- The method on a Meta storage (null pointer, `nbytes = 16`), which the
invalid-storage test accepts: the loop dereferences the null pointer. -/
theorem byteswap_meta_crashes :
    invalid sampleMetaStorage = false ∧
    THPStorage_byteswap sampleHost sampleMetaStorage [.long 2] = .crashed ∧
    THPStorage_byteswap sampleHost sampleMetaStorage [.long 4] = .crashed ∧
    THPStorage_byteswap sampleHost sampleMetaStorage [.long 8] = .crashed := by
  decide

/-- Every error of `THPStorage_byteswap` is raised with the storage as it was
on entry. -/
theorem byteswap_raised_unchanged (host : Host) (s : StorageImpl) (args : List PyObject)
    (e : PyErr) (s1 : StorageImpl) (h : THPStorage_byteswap host s args = .raised e s1) :
    s1 = s := by
  unfold THPStorage_byteswap at h
  split at h
  · split at h
    · cases h; rfl
    · split at h
      · cases h; rfl
      · split at h
        · cases h; rfl
        · simp only at h
          split at h
          · cases h
          · split at h
            · cases h; rfl
            · have haft : ∀ r, afterLoop s r ≠ .raised e s1 := by
                intro r hr
                unfold afterLoop at hr
                split at hr <;> cases hr
              split at h
              · exact absurd h (haft _)
              · split at h
                · exact absurd h (haft _)
                · split at h
                  · exact absurd h (haft _)
                  · cases h
  · cases h; rfl

/-- C9.  With an int argument `v`, `THPStorage_byteswap` raises an error iff
`v` is not one of 1, 2, 4, 8, or `v` is 2, 4 or 8 and `nbytes` is not a
multiple of `v`; the two cases raise the element-size error and the
length error; whenever the method raises (for any argument tuple) the storage
is as it was on entry; `v = 1` returns the storage unchanged for every
`nbytes`; and in every other case a backed storage makes the method return. -/
theorem byteswap_failure (host : Host) (s : StorageImpl) (v : Int) :
    ((∃ e s1, THPStorage_byteswap host s [.long v] = .raised e s1) ↔
      (¬ (v = 1 ∨ v = 2 ∨ v = 4 ∨ v = 8) ∨
        ((v = 2 ∨ v = 4 ∨ v = 8) ∧ s.nbytes % v.toNat ≠ 0))) ∧
    (isSsize v → ¬ (v = 1 ∨ v = 2 ∨ v = 4 ∨ v = 8) →
      THPStorage_byteswap host s [.long v] = .raised .badElemSize s) ∧
    ((v = 2 ∨ v = 4 ∨ v = 8) → s.nbytes % v.toNat ≠ 0 →
      THPStorage_byteswap host s [.long v] = .raised (.lengthNotMultiple v) s) ∧
    (∀ args e s1, THPStorage_byteswap host s args = .raised e s1 → s1 = s) ∧
    THPStorage_byteswap host s [.long 1] = .returned () s ∧
    (s.backed → (v = 2 ∨ v = 4 ∨ v = 8) → s.nbytes % v.toNat = 0 →
      ∃ s1, THPStorage_byteswap host s [.long v] = .returned () s1) := by
  have hone : THPStorage_byteswap host s [.long 1] = .returned () s := by
    simp [THPStorage_byteswap, THPUtils_checkLong, THPUtils_unpackLong, isSsize]
  have hbad : ¬ (v = 1 ∨ v = 2 ∨ v = 4 ∨ v = 8) →
      ∃ e, THPStorage_byteswap host s [.long v] = .raised e s := by
    intro hv
    by_cases hr : isSsize v
    · exact ⟨.badElemSize, by
        simp [THPStorage_byteswap, THPUtils_checkLong, THPUtils_unpackLong, hr, hv]⟩
    · exact ⟨.unpackOverflow, by
        simp [THPStorage_byteswap, THPUtils_checkLong, THPUtils_unpackLong, hr]⟩
  have hlen : (v = 2 ∨ v = 4 ∨ v = 8) → s.nbytes % v.toNat ≠ 0 →
      THPStorage_byteswap host s [.long v] = .raised (.lengthNotMultiple v) s := by
    intro hv hm
    rcases hv with rfl | rfl | rfl
    · exact (byteswap_two host s).trans (if_pos hm)
    · exact (byteswap_four host s).trans (if_pos hm)
    · exact (byteswap_eight host s).trans (if_pos hm)
  have hgood : s.backed → (v = 2 ∨ v = 4 ∨ v = 8) → s.nbytes % v.toNat = 0 →
      ∃ s1, THPStorage_byteswap host s [.long v] = .returned () s1 := by
    intro hs hv hm
    rcases hv with rfl | rfl | rfl
    · exact ⟨_, byteswap_eq_swapped host s hs 2 (Or.inl rfl) hm⟩
    · exact ⟨_, byteswap_eq_swapped host s hs 4 (Or.inr (Or.inl rfl)) hm⟩
    · exact ⟨_, byteswap_eq_swapped host s hs 8 (Or.inr (Or.inr rfl)) hm⟩
  refine ⟨⟨?_, ?_⟩, ?_, hlen, fun args e s1 h => byteswap_raised_unchanged host s args e s1 h,
    hone, hgood⟩
  · rintro ⟨e, s1, h⟩
    by_contra hcon
    have hcon' : (v = 1 ∨ v = 2 ∨ v = 4 ∨ v = 8) ∧
        ((v = 2 ∨ v = 4 ∨ v = 8) → s.nbytes % v.toNat = 0) := by
      constructor
      · by_contra h1; exact hcon (Or.inl h1)
      · intro h2; by_contra h3; exact hcon (Or.inr ⟨h2, h3⟩)
    obtain ⟨hv, hm⟩ := hcon'
    have haft : ∀ r, afterLoop s r ≠ .raised e s1 := by
      intro r hr
      unfold afterLoop at hr
      split at hr <;> cases hr
    rcases hv with rfl | rfl | rfl | rfl
    · rw [hone] at h; cases h
    · have hm2 : ¬ (s.nbytes % 2 ≠ 0) := not_not.mpr (hm (Or.inl rfl))
      rw [byteswap_two, if_neg hm2] at h
      exact haft _ h
    · have hm2 : ¬ (s.nbytes % 4 ≠ 0) := not_not.mpr (hm (Or.inr (Or.inl rfl)))
      rw [byteswap_four, if_neg hm2] at h
      exact haft _ h
    · have hm2 : ¬ (s.nbytes % 8 ≠ 0) := not_not.mpr (hm (Or.inr (Or.inr rfl)))
      rw [byteswap_eight, if_neg hm2] at h
      exact haft _ h
  · rintro (hv | ⟨hv, hm⟩)
    · obtain ⟨e, he⟩ := hbad hv
      exact ⟨e, s, he⟩
    · exact ⟨_, s, hlen hv hm⟩
  · intro hr hv
    simp [THPStorage_byteswap, THPUtils_checkLong, THPUtils_unpackLong, hr, hv]

theorem byteswap_failure_witness :
    (sampleStorage 9).nbytes % (4 : Int).toNat ≠ 0 ∧
    THPStorage_byteswap sampleHost (sampleStorage 9) [.long 4] =
      .raised (.lengthNotMultiple 4) (sampleStorage 9) ∧
    isSsize 3 ∧
    THPStorage_byteswap sampleHost (sampleStorage 9) [.long 3] =
      .raised .badElemSize (sampleStorage 9) ∧
    (sampleStorage 8).backed ∧ (sampleStorage 8).nbytes % (4 : Int).toNat = 0 ∧
    ∃ s1, THPStorage_byteswap sampleHost (sampleStorage 8) [.long 4] = .returned () s1 :=
  ⟨by decide,
    (byteswap_failure sampleHost (sampleStorage 9) 4).2.2.1 (Or.inr (Or.inl rfl)) (by decide),
    by decide,
    (byteswap_failure sampleHost (sampleStorage 9) 3).2.1 (by decide) (by decide),
    by decide, by decide,
    (byteswap_failure sampleHost (sampleStorage 8) 4).2.2.2.2.2 (by decide)
      (Or.inr (Or.inl rfl)) (by decide)⟩

/-! ## The invalid-storage check -/

/-- C10.  A storage is invalid exactly when its data pointer is null, its
device is not Meta and `nbytes` is nonzero.  On an invalid storage each of
`data_ptr`, `resize_`, `fill_` and `_write_file` raises its invalid-storage
error with the storage unchanged, whatever the arguments and whatever the
routines behind the method do (no other check and no routine is reached).
The check never rejects a Meta storage, a storage with a null pointer and
`nbytes = 0`, or a storage with a non-null pointer; on those `data_ptr`
returns. -/
theorem invalid_storage_rejected (s : StorageImpl) :
    (invalid s = true ↔ (s.data_ptr = none ∧ s.device_type ≠ .Meta ∧ s.nbytes ≠ 0)) ∧
    (invalid s = true →
      THPStorage_dataPtr s =
        .raised
          (.invalidStorage "Attempted to access the data pointer on an invalid python storage.")
          s ∧
      (∀ (env : Backends) (number_arg : PyObject), THPStorage_resize_ env s number_arg =
        .raised (.invalidStorage "Attempted to call resize_() on an invalid python storage.")
          s) ∧
      (∀ (env : Backends) (number_arg : PyObject), THPStorage_fill_ env s number_arg =
        .raised (.invalidStorage "Attempted to call fill_() on an invalid python storage.")
          s) ∧
      (∀ (env : Backends) (args : WriteFileArgs), THPStorage_writeFile env s args =
        .raised
          (.invalidStorage "Attempted to call _write_file() on an invalid python storage.")
          s)) ∧
    (s.device_type = .Meta → invalid s = false) ∧
    (s.data_ptr = none → s.nbytes = 0 → invalid s = false) ∧
    (s.data_ptr ≠ none → invalid s = false) ∧
    (invalid s = false → THPStorage_dataPtr s = .returned (ptrAddr s.data_ptr) s) := by
  refine ⟨?_, ?_, ?_, ?_, ?_, ?_⟩
  · cases hp : s.data_ptr <;> simp [invalid, hp, StorageImpl.nbytes]
  · intro h
    refine ⟨?_, ?_, ?_, ?_⟩
    · simp [THPStorage_dataPtr, h]
    · intro env number_arg; simp [THPStorage_resize_, h]
    · intro env number_arg; simp [THPStorage_fill_, h]
    · intro env args; simp [THPStorage_writeFile, h]
  · intro h; simp [invalid, h]
  · intro h1 h2
    simp only [StorageImpl.nbytes] at h2
    simp [invalid, h2]
  · intro h
    cases hp : s.data_ptr with
    | none => exact absurd hp h
    | some d => simp [invalid, hp]
  · intro h
    simp only [THPStorage_dataPtr, h, Bool.false_eq_true, if_false, ptrAddr]

theorem invalid_storage_rejected_witness :
    invalid sampleInvalidStorage = true ∧
    THPStorage_dataPtr sampleInvalidStorage =
      .raised
        (.invalidStorage "Attempted to access the data pointer on an invalid python storage.")
        sampleInvalidStorage ∧
    sampleMetaStorage.device_type = .Meta ∧ invalid sampleMetaStorage = false :=
  ⟨by decide, ((invalid_storage_rejected sampleInvalidStorage).2.1 (by decide)).1, rfl,
    (invalid_storage_rejected sampleMetaStorage).2.2.1 rfl⟩

/-! ## `THPStorage_byteswap` on an invalid storage -/

theorem byteswapLoop_null (native : THPByteOrder) (w : Nat) (bswap : Nat → Nat) (n i : Nat) :
    byteswapLoop native w bswap (n + 1) i none = none := by
  simp [byteswapLoop, swapWordAt]

/-- On an invalid storage whose `nbytes` is a multiple of the word size the
method reaches the loop and dereferences the null pointer. -/
theorem byteswap_invalid_crashes (host : Host) (s : StorageImpl) (hinv : invalid s = true)
    (w : Nat) (hw : w = 2 ∨ w = 4 ∨ w = 8) (hdiv : s.nbytes % w = 0) :
    THPStorage_byteswap host s [.long (w : Int)] = .crashed := by
  have hnull : s.data_ptr = none ∧ s.nbytes ≠ 0 := by
    cases hp : s.data_ptr <;> simp_all [invalid, StorageImpl.nbytes]
  obtain ⟨hp, hnz⟩ := hnull
  have hcount : ∀ k : Nat, 0 < k → s.nbytes % k = 0 → ∃ n, s.nbytes / k = n + 1 := by
    intro k hk hm
    have h1 : k ≤ s.nbytes := Nat.le_of_dvd (Nat.pos_of_ne_zero hnz) (Nat.dvd_of_mod_eq_zero hm)
    have h2 : 0 < s.nbytes / k := Nat.div_pos h1 hk
    exact ⟨s.nbytes / k - 1, by omega⟩
  rcases hw with rfl | rfl | rfl
  · obtain ⟨n, hn⟩ := hcount 2 (by decide) hdiv
    have h := byteswap_two host s
    rw [if_neg (not_not.mpr hdiv), hn, hp, byteswapLoop_null] at h
    exact h
  · obtain ⟨n, hn⟩ := hcount 4 (by decide) hdiv
    have h := byteswap_four host s
    rw [if_neg (not_not.mpr hdiv), hn, hp, byteswapLoop_null] at h
    exact h
  · obtain ⟨n, hn⟩ := hcount 8 (by decide) hdiv
    have h := byteswap_eight host s
    rw [if_neg (not_not.mpr hdiv), hn, hp, byteswapLoop_null] at h
    exact h

/-- C11 (code defect, evaluation at the failing input).  On an invalid storage
(null data pointer, CPU, `nbytes = 16`) `THPStorage_byteswap` with
`elem_size` 2, 4 or 8 raises no error: it has no invalid-storage check, runs
its loop and reads through the null pointer (undefined behaviour), whereas
`data_ptr` on the same storage raises the invalid-storage error. -/
theorem byteswap_invalid_storage_no_error :
    invalid sampleInvalidStorage = true ∧
    THPStorage_byteswap sampleHost sampleInvalidStorage [.long 2] = .crashed ∧
    THPStorage_byteswap sampleHost sampleInvalidStorage [.long 4] = .crashed ∧
    THPStorage_byteswap sampleHost sampleInvalidStorage [.long 8] = .crashed ∧
    THPStorage_dataPtr sampleInvalidStorage =
      .raised
        (.invalidStorage "Attempted to access the data pointer on an invalid python storage.")
        sampleInvalidStorage := by
  decide

/-! ## `THPStorage_resize_` -/

/-- The guard of the XPU branch, `c10::overflows<int64_t>` on a value that is
already an `int64_t`, never fires. -/
theorem overflows_int64_t_of_isSsize (v : Int) (h : isSsize v) : overflows_int64_t v = false := by
  simp [overflows_int64_t, h]

/-- With `USE_CUDA`, the CUDA branch rejects a negative size before it calls
the device routine. -/
theorem resize_cuda_negative (env : Backends) (hcuda : env.USE_CUDA = true) (n : Nat) :
    THPStorage_resize_ env (sampleStorageOn .CUDA n) (.long (-1)) =
      .raised (.sizeNotRepresentable (-1)) (sampleStorageOn .CUDA n) := by
  simp [THPStorage_resize_, invalid, sampleStorageOn, sampleStorage, THPUtils_checkLong,
    THPUtils_unpackLong, isSsize, hcuda, overflows_size_t]

/-- C12 (code defect, evaluation at the failing input).  The size -1 is not
representable as an unsigned byte count, and the storages are valid, yet on
the CPU, Meta and PrivateUse1 devices `THPStorage_resize_` raises no overflow
error of its own: whatever the device routine is, the method hands it the
raw -1 and ends as that routine ends.  On XPU the guard tests an `int64_t`
against `int64_t`, never fires, and the tensor resize is reached with -1. -/
theorem resize_negative_size_passed_on (env : Backends) :
    overflows_size_t (-1) = true ∧
    invalid (sampleStorageOn .CPU 16) = false ∧ invalid sampleMetaStorage = false ∧
    invalid (sampleStorageOn .PrivateUse1 16) = false ∧
    invalid (sampleStorageOn .XPU 16) = false ∧
    THPStorage_resize_ env (sampleStorageOn .CPU 16) (.long (-1)) =
      env.resize_bytes_cpu (sampleStorageOn .CPU 16) (-1) ∧
    THPStorage_resize_ env sampleMetaStorage (.long (-1)) =
      env.resize_bytes_meta sampleMetaStorage (-1) ∧
    THPStorage_resize_ env (sampleStorageOn .PrivateUse1 16) (.long (-1)) =
      env.resizePrivateUse1Bytes (sampleStorageOn .PrivateUse1 16) (-1) ∧
    overflows_int64_t (-1) = false ∧
    THPStorage_resize_ env (sampleStorageOn .XPU 16) (.long (-1)) =
      match env.xpu_tensor_resize (sampleStorageOn .XPU 16) (-1) with
      | .crashed => .crashed
      | .raised e s => .raised e s
      | .returned _ src =>
        if ptrAddr (sampleStorageOn .XPU 16).data_ptr = ptrAddr src.data_ptr then
          match env.xpu_tensor_clone src with
          | .crashed => .crashed
          | .raised e => .raised e src
          | .returned new_storage =>
            .returned ()
              { src with
                data_ptr := new_storage.data_ptr
                allocator := new_storage.allocator
                size_bytes := new_storage.nbytes }
        else .returned () src := by
  refine ⟨by decide, by decide, by decide, by decide, by decide, rfl, ?_, ?_, by decide, ?_⟩
  · simp [THPStorage_resize_, invalid, sampleMetaStorage, THPUtils_checkLong,
      THPUtils_unpackLong, isSsize]
  · simp [THPStorage_resize_, invalid, sampleStorageOn, sampleStorage, THPUtils_checkLong,
      THPUtils_unpackLong, isSsize]
  · simp [THPStorage_resize_, resize_xpu, invalid, sampleStorageOn, sampleStorage,
      THPUtils_checkLong, THPUtils_unpackLong, isSsize, overflows_int64_t]

/-- Every storage `THPStorage_fromFile` returns is non-resizable, on the CPU
and without an allocator. -/
theorem fromFile_not_resizable (map : MapAllocator) (args : FromFileArgs) (s : StorageImpl)
    (h : THPStorage_fromFile map args = .returned s) :
    s.resizable = false ∧ s.device_type = .CPU ∧ s.allocator = .null := by
  unfold THPStorage_fromFile at h
  by_cases hp : isCInt args.shared ∧ isSsize args.nbytes
  · rw [if_neg (not_not.mpr hp)] at h
    simp only at h
    generalize map.makeDataPtr args.filename _ args.nbytes = r at h
    cases r with
    | crashed => cases h
    | raised e => cases h
    | returned p =>
      obtain ⟨data_ptr, actual_nbytes⟩ := p
      simp only at h
      by_cases hn : args.nbytes ≤ 0
      · rw [if_pos hn] at h; cases h; exact ⟨rfl, rfl, rfl⟩
      · rw [if_neg hn] at h; cases h; exact ⟨rfl, rfl, rfl⟩
  · rw [if_pos hp] at h
    cases h

/-- C13 (code defect).  `THPStorage_resize_` never reads the `resizable` flag.
On a valid XPU storage whose flag is false, whenever the tensor resize
returns with the storage as it was (the case the source comment at lines
171-174 names: the original data_ptr is still returned), the fallback at lines
175-183 replaces the data pointer, the allocator and `nbytes` by those of the
new tensor and the method returns: no error, and the storage is changed.  On
a valid CPU storage whose flag is false (as `THPStorage_fromFile` makes them)
the method ends as `resize_bytes_cpu` ends: the flag is not tested here. -/
theorem resize_non_resizable_not_rejected (env : Backends) (s new_storage : StorageImpl)
    (newsize : Int) (hres : s.resizable = false) (hvalid : invalid s = false)
    (hdev : s.device_type = .XPU) (hsize : isSsize newsize)
    (hresize : env.xpu_tensor_resize s newsize = .returned () s)
    (hclone : env.xpu_tensor_clone s = .returned new_storage) :
    THPStorage_resize_ env s (.long newsize) =
      .returned ()
        { s with
          data_ptr := new_storage.data_ptr
          allocator := new_storage.allocator
          size_bytes := new_storage.nbytes } ∧
    s.resizable = false ∧
    (∀ (map : MapAllocator) (args : FromFileArgs) (s0 : StorageImpl),
      THPStorage_fromFile map args = .returned s0 → invalid s0 = false →
      s0.resizable = false ∧
      THPStorage_resize_ env s0 (.long newsize) = env.resize_bytes_cpu s0 newsize) := by
  refine ⟨?_, hres, ?_⟩
  · have hov : overflows_int64_t newsize = false := overflows_int64_t_of_isSsize newsize hsize
    simp [THPStorage_resize_, resize_xpu, hvalid, THPUtils_checkLong, THPUtils_unpackLong,
      hsize, hdev, hov, hresize, hclone]
  · intro map args s0 h0 hv0
    obtain ⟨hr0, hd0, -⟩ := fromFile_not_resizable map args s0 h0
    refine ⟨hr0, ?_⟩
    simp [THPStorage_resize_, hv0, THPUtils_checkLong, THPUtils_unpackLong, hsize, hd0]

theorem resize_non_resizable_not_rejected_witness :
    sampleFixedXpuStorage.resizable = false ∧ invalid sampleFixedXpuStorage = false ∧
    sampleFixedXpuStorage.device_type = .XPU ∧ isSsize 8 ∧
    THPStorage_resize_ (sameBackingBackends sampleXpuCopy) sampleFixedXpuStorage (.long 8) =
      .returned ()
        { sampleFixedXpuStorage with
          data_ptr := sampleXpuCopy.data_ptr
          allocator := sampleXpuCopy.allocator
          size_bytes := sampleXpuCopy.nbytes } ∧
    sampleXpuCopy.nbytes ≠ sampleFixedXpuStorage.nbytes ∧
    sampleXpuCopy.data_ptr ≠ sampleFixedXpuStorage.data_ptr :=
  ⟨rfl, by decide, rfl, by decide,
    (resize_non_resizable_not_rejected (sameBackingBackends sampleXpuCopy)
      sampleFixedXpuStorage sampleXpuCopy 8 rfl (by decide) rfl (by decide) rfl rfl).1,
    by decide, by decide⟩

end StorageMethods
